import Mathlib

/-!
Shallow embedding of the savr spending-analysis pipeline
(`financial logic/analysis.py`) and proofs about its behaviour.

Modelling conventions:
* Python floats are modelled as exact rationals (`ℚ`).
* Python datetimes are modelled as structured `Ts` values (year, month, day,
  hour, minute, second); ISO-8601 string parsing itself is not modelled,
  the `ts` field of a raw transaction is either absent or an already
  structured timestamp.  Day counts and second counts are derived with the
  standard civil-calendar algorithms, matching `datetime` semantics.
* Python dicts keyed by `"YYYY-MM"` / `"YYYY-Www"` strings are modelled as
  association lists keyed by `(year, month)` / `(isoYear, isoWeek)` pairs;
  sorting those strings via `strptime` / `fromisocalendar` in the source is
  order-isomorphic to lexicographic order on the pairs.
* Python's `statistics.stdev` returns the square root of the sample
  variance; quantities compared against a stdev are compared exactly via
  squares (for a positive threshold t, `z > t ↔ curr - mean > t·stdev ↔
  curr - mean > 0 ∧ (curr - mean)² > t²·variance`), so no real square
  roots are needed.
* Insertion-ordered Python dicts are modelled by first-occurrence key lists
  (`insertOrder`) plus value functions; `sorted` (a stable sort) is
  modelled by a stable insertion sort (`sortBy`).
-/

namespace Savr

/-! ### Configuration constants (module-level CONFIG and tables) -/

def DISPLAY_CURRENCY : String := "GBP"

def CATEGORY_ALIASES : List (String × String) :=
  [("uber", "transport.ridehail"), ("bolt", "transport.ridehail"),
   ("lyft", "transport.ridehail"), ("tfl", "transport.public"),
   ("national rail", "transport.public"), ("tesco", "groceries"),
   ("sainsburys", "groceries"), ("sainsbury's", "groceries"),
   ("waitrose", "groceries"), ("aldi", "groceries"), ("lidl", "groceries"),
   ("deliveroo", "eating_out"), ("just eat", "eating_out"),
   ("starbucks", "dining.coffee"), ("pret", "dining.coffee"),
   ("hmrc", "taxes"), ("salary", "income.salary")]

def NECESSITY_CATEGORIES : List String :=
  ["groceries", "housing.rent", "rent", "utilities", "transport.public", "taxes"]

def SWAP_ELIGIBLE_CATEGORIES : List String := ["groceries", "dining.coffee"]

def LATE_NIGHT_CATEGORIES : List String := ["eating_out", "dining.delivery"]

def RIDEHAIL_CATEGORIES : List String := ["transport.ridehail"]

def RENT_CATEGORIES : List String := ["housing.rent", "rent"]

def winsorisePercentile : ℚ := 0.99

def hhiWindowWeeks : ℤ := 8

def hhiHighThreshold : ℚ := 0.4

def smallTxThreshold : ℚ := 5

def smallTxWeekLimit : ℕ := 6

def dripRiseMinDelta : ℚ := 0.15

def recurringCvThreshold : ℚ := 0.15

def recurringIntervalTolerance : ℚ := 2

def recurringMinOccurrences : ℕ := 3

def anomalyWindowWeeks : ℕ := 6

def anomalyZThreshold : ℚ := 2

def anomalyWeekDelta : ℚ := 0.30

def opportunityCapRatio : ℚ := 0.2

def risingMomThreshold : ℚ := 0.10

def DOW_NAMES : List String := ["Mon", "Tue", "Wed", "Thu", "Fri", "Sat", "Sun"]

def TIME_BUCKETS : List String := ["morning", "afternoon", "evening", "late"]

/-! ### Generic list / numeric helpers -/

/-- First-occurrence deduplication: the key list of an insertion-ordered
Python dict or set built by successive insertions. -/
def insertOrder {α : Type} [DecidableEq α] (l : List α) : List α :=
  l.foldl (fun acc a => if a ∈ acc then acc else acc ++ [a]) []

/-- Insert `a` into `l`, before the first element `b` with `le a b`. -/
def insertBy {α : Type} (le : α → α → Bool) (a : α) : List α → List α
  | [] => [a]
  | b :: l => if le a b then a :: b :: l else b :: insertBy le a l

/-- Stable insertion sort; with a `≤`-style comparison this matches the
stability contract of Python's `sorted`. -/
def sortBy {α : Type} (le : α → α → Bool) : List α → List α
  | [] => []
  | a :: l => insertBy le a (sortBy le l)

/-- Lexicographic `≤` on `(year, n)` pairs — the order in which Python sorts
`"YYYY-MM"` month keys (via `strptime`) and `"YYYY-Www"` week keys (via
`fromisocalendar`). -/
def lexLe (a b : ℤ × ℤ) : Bool :=
  decide (a.1 < b.1) || (decide (a.1 = b.1) && decide (a.2 ≤ b.2))

/-- `max` over a list of integers (callers guard non-emptiness, as Python's
`max` raises on an empty sequence; the default is then irrelevant). -/
def listMaxI (l : List ℤ) : ℤ := l.foldl max (l.headD 0)

/-- `max` over a list of rationals. -/
def listMaxQ (l : List ℚ) : ℚ := l.foldl max (l.headD 0)

/-- `max` over month/week key pairs (Python compares the key strings, which
is the lexicographic pair order). -/
def listMaxLex (l : List (ℤ × ℤ)) : ℤ × ℤ :=
  l.foldl (fun a b => if lexLe a b then b else a) (l.headD (0, 0))

/-- Arithmetic mean (`statistics.mean`); callers guard non-empty input. -/
def qmean (l : List ℚ) : ℚ := l.sum / (l.length : ℚ)

/-- Sample variance, i.e. the square of `statistics.stdev`. -/
def sampleVar (l : List ℚ) : ℚ :=
  ((l.map (fun x => (x - qmean l) ^ 2)).sum) / ((l.length : ℚ) - 1)

/-- `statistics.median`: middle element of the sorted list, or the average
of the two middle elements for even length. Callers guard non-empty input. -/
def qmedian (l : List ℚ) : ℚ :=
  let s := sortBy (fun a b => decide (a ≤ b)) l
  let n := s.length
  if n % 2 = 1 then s.getD (n / 2) 0
  else (s.getD (n / 2 - 1) 0 + s.getD (n / 2) 0) / 2

/-- `pct_change`: `None` when the previous value is zero. -/
def pct_change (curr prev : ℚ) : Option ℚ :=
  if prev = 0 then none else some ((curr - prev) / prev)

/-- `rolling_mean` with positive window (the source raises on `window ≤ 0`;
every call site uses window 3). -/
def rolling_mean (series : List ℚ) (window : ℕ) : List (Option ℚ) :=
  (List.range series.length).map (fun idx =>
    if idx + 1 < window then none
    else some (((series.drop (idx + 1 - window)).take window).sum / (window : ℚ)))

/-- `linear_trend`: least-squares slope over `x = 0,1,…,n-1`. -/
def linear_trend (values : List ℚ) : ℚ :=
  let n := values.length
  if n < 2 then 0 else
  let xs := (List.range n).map (fun i => (i : ℚ))
  let xMean := xs.sum / (n : ℚ)
  let yMean := values.sum / (n : ℚ)
  let denom := (xs.map (fun xi => (xi - xMean) ^ 2)).sum
  if denom = 0 then 0 else
  ((xs.zip values).map (fun p => (p.1 - xMean) * (p.2 - yMean))).sum / denom

/-- `percentile_value`: linear-interpolated percentile of the sorted values
(`int(pos)` in the source truncates; `pos ≥ 0` for the `q ∈ [0,1]` call
sites, where truncation is the floor). -/
def percentile_value (values : List ℚ) (q : ℚ) : ℚ :=
  if values = [] then 0 else
  let ordered := sortBy (fun a b => decide (a ≤ b)) values
  if ordered.length = 1 then ordered.getD 0 0 else
  let pos := ((ordered.length : ℚ) - 1) * q
  let lower := (⌊pos⌋).toNat
  let upper := min (lower + 1) (ordered.length - 1)
  let weight := pos - (lower : ℚ)
  ordered.getD lower 0 * (1 - weight) + ordered.getD upper 0 * weight

/-- Python 3 `round` to an integer (banker's rounding: ties to even). -/
def pyRound (q : ℚ) : ℤ :=
  let f := ⌊q⌋
  let r := q - (f : ℚ)
  if r < 1 / 2 then f else if r > 1 / 2 then f + 1
  else if f % 2 = 0 then f else f + 1

/-- `round(x, 2)` used for the near-duplicate key. -/
def roundTo2 (q : ℚ) : ℚ := (pyRound (q * 100) : ℚ) / 100

/-- `round_to_nearest_5`. -/
def round_to_nearest_5 (q : ℚ) : ℚ := (pyRound (q / 5) : ℚ) * 5

/-- First key with the maximal score (Python's `max(..., key=...)` and
`Counter.most_common` both resolve ties in favour of the earlier entry). -/
def maxByFirst {α : Type} (score : α → ℚ) : List α → Option α
  | [] => none
  | a :: l => some (l.foldl (fun best x => if score x > score best then x else best) a)

/-- `Counter(l).most_common(1)[0][0]`: the first-inserted key among those of
maximal multiplicity. Callers guard non-empty input. -/
def mostCommon {α : Type} [DecidableEq α] (l : List α) (dflt : α) : α :=
  let keys := insertOrder l
  let count := fun a => ((l.filter (fun x => x = a)).length : ℚ)
  (maxByFirst count keys).getD dflt

/-! ### Calendar arithmetic (`datetime` / `calendar` behaviour) -/

/-- Days since 1970-01-01 of a proleptic-Gregorian civil date
(Hinnant's `days_from_civil`, with floor division). -/
def daysFromCivil (y m d : ℤ) : ℤ :=
  let y2 := if m ≤ 2 then y - 1 else y
  let era := Int.fdiv y2 400
  let yoe := y2 - era * 400
  let doy := Int.fdiv (153 * (m + (if m > 2 then -3 else 9)) + 2) 5 + d - 1
  let doe := yoe * 365 + Int.fdiv yoe 4 - Int.fdiv yoe 100 + doy
  era * 146097 + doe - 719468

/-- Inverse of `daysFromCivil` (Hinnant's `civil_from_days`). -/
def civilFromDays (z0 : ℤ) : ℤ × ℤ × ℤ :=
  let z := z0 + 719468
  let era := Int.fdiv z 146097
  let doe := z - era * 146097
  let yoe := Int.fdiv (doe - Int.fdiv doe 1460 + Int.fdiv doe 36524 - Int.fdiv doe 146096) 365
  let y := yoe + era * 400
  let doy := doe - (365 * yoe + Int.fdiv yoe 4 - Int.fdiv yoe 100)
  let mp := Int.fdiv (5 * doy + 2) 153
  let d := doy - Int.fdiv (153 * mp + 2) 5 + 1
  let m := mp + (if mp < 10 then 3 else -9)
  (if m ≤ 2 then y + 1 else y, m, d)

/-- Weekday with Monday = 0 (`datetime.weekday()`); day 0 (1970-01-01) was a
Thursday. -/
def weekdayOf (dayN : ℤ) : ℤ := Int.emod (dayN + 3) 7

/-- `(iso_year, iso_week)` of a day number (`datetime.isocalendar()`):
the ISO week-year is the calendar year of the week's Thursday. -/
def isoWeekKey (dayN : ℤ) : ℤ × ℤ :=
  let thu := dayN - weekdayOf dayN + 3
  let isoY := (civilFromDays thu).1
  (isoY, Int.fdiv (thu - daysFromCivil isoY 1 1) 7 + 1)

def isLeapYear (y : ℤ) : Bool :=
  decide (Int.emod y 4 = 0) &&
    (decide (Int.emod y 100 ≠ 0) || decide (Int.emod y 400 = 0))

/-- `calendar.monthrange(y, m)[1]`: number of days in the month. -/
def month_days (ym : ℤ × ℤ) : ℤ :=
  if ym.2 = 2 then (if isLeapYear ym.1 then 29 else 28)
  else if ym.2 = 4 ∨ ym.2 = 6 ∨ ym.2 = 9 ∨ ym.2 = 11 then 30 else 31

/-- `add_months` on a month key (the source sets the day to 1 and formats
back to `"YYYY-MM"`; only the year/month pair matters). -/
def add_months (ym : ℤ × ℤ) (k : ℤ) : ℤ × ℤ :=
  let m0 := ym.2 - 1 + k
  (ym.1 + Int.fdiv m0 12, Int.emod m0 12 + 1)

/-! ### Input transactions and enriched rows -/

/-- A structured timestamp (result of `parse_iso_ts`). -/
structure Ts where
  year : ℤ
  month : ℤ
  day : ℤ
  hour : ℤ
  minute : ℤ
  second : ℤ
deriving DecidableEq

/-- Seconds since epoch of a timestamp (`datetime` differences compare by
this quantity; sub-second precision is not modelled). -/
def Ts.dtSec (t : Ts) : ℤ :=
  daysFromCivil t.year t.month t.day * 86400 + t.hour * 3600 + t.minute * 60 + t.second

/-- A raw transaction record. `none` models an absent (or, for `ts` and
`merchant`, a falsy) field; arbitrary passthrough fields are irrelevant to
the pipeline and not modelled. -/
structure Tx where
  amount : Option ℚ
  currency : Option String
  ts : Option Ts
  merchant : Option String
  category : Option String
deriving DecidableEq

/-- Validation errors raised by `preprocess_transactions`. -/
inductive PreErr where
  | unsupportedCurrency (c : String)
  | missingTimestamp
deriving DecidableEq

/-- `normalise_category`: strip/lower-case, alias lookup, default
`"uncategorised"` (applied both to a missing/falsy raw value and to a
whitespace-only value whose stripped form is empty). -/
def normalise_category (raw : Option String) : String :=
  let base := match raw with
    | none => "uncategorised"
    | some s => if s = "" then "uncategorised" else s
  let rawNorm := base.trim.toLower
  match CATEGORY_ALIASES.lookup rawNorm with
  | some v => v
  | none => if rawNorm = "" then "uncategorised" else rawNorm

/-- `time_of_day_bucket`. -/
def time_of_day_bucket (hour : ℤ) : String :=
  if 6 ≤ hour ∧ hour ≤ 11 then "morning"
  else if 12 ≤ hour ∧ hour ≤ 17 then "afternoon"
  else if 18 ≤ hour ∧ hour ≤ 22 then "evening"
  else "late"

/-- An enriched transaction row (the dict produced per row by
`preprocess_transactions`).  `amountW` is `amount_winsorised`, absent until
`winsorise_spend_amounts` sets it; downstream reads use
`row.get("amount_winsorised", row["amount"])`, i.e. `amountW.getD amount`. -/
structure Row where
  amount : ℚ
  amountAbs : ℚ
  ts : Ts
  dtSec : ℤ
  day : ℤ
  dow : ℤ
  hour : ℤ
  week : ℤ
  weekYear : ℤ
  weekKey : ℤ × ℤ
  weekStart : ℤ
  monthKey : ℤ × ℤ
  monthStart : ℤ
  isSpend : Bool
  isIncome : Bool
  category : String
  merchant : String
  merchantNorm : String
  timeBucket : String
  isoWeekday : ℤ
  amountW : Option ℚ
deriving DecidableEq

/-- The winsorised-or-raw amount every aggregation stage reads. -/
def Row.amt (r : Row) : ℚ := r.amountW.getD r.amount

/-- `(row.get("merchant") or "unknown")` — `None` and the empty string are
falsy. -/
def merchantRaw (o : Option String) : String :=
  match o with
  | none => "unknown"
  | some s => if s = "" then "unknown" else s

/-- Validation and enrichment of a single record (loop body of
`preprocess_transactions`, before winsorisation). -/
def enrichOne (tx : Tx) : Except PreErr Row :=
  let amount := tx.amount.getD 0
  let currency := tx.currency.getD DISPLAY_CURRENCY
  if currency ≠ DISPLAY_CURRENCY then .error (.unsupportedCurrency currency)
  else match tx.ts with
  | none => .error .missingTimestamp
  | some t =>
    let dayN := daysFromCivil t.year t.month t.day
    let wk := isoWeekKey dayN
    let dw := weekdayOf dayN
    let merchant := (merchantRaw tx.merchant).trim
    .ok
      { amount := amount
        amountAbs := |amount|
        ts := t
        dtSec := t.dtSec
        day := dayN
        dow := dw
        hour := t.hour
        week := wk.2
        weekYear := wk.1
        weekKey := wk
        weekStart := dayN - dw
        monthKey := (t.year, t.month)
        monthStart := daysFromCivil t.year t.month 1
        isSpend := decide (amount < 0)
        isIncome := decide (amount > 0)
        category := normalise_category tx.category
        merchant := merchant
        merchantNorm := merchant.toLower
        timeBucket := time_of_day_bucket t.hour
        isoWeekday := dw + 1
        amountW := none }

/-- Absolute spend magnitudes per category over the whole batch
(`per_category_values` in `winsorise_spend_amounts`). -/
def perCategoryValues (rows : List Row) (cat : String) : List ℚ :=
  (rows.filter (fun r => r.isSpend && decide (r.category = cat))).map (fun r => |r.amount|)

/-- The per-category winsorisation cap (`caps` entry), present exactly when
the category has at least one spend row. -/
def capFor (rows : List Row) (p : ℚ) (cat : String) : Option ℚ :=
  let vs := perCategoryValues rows cat
  if vs = [] then none else some (percentile_value vs p)

/-- Per-row body of `winsorise_spend_amounts`: clip a spend row's
magnitude at its category cap (defaulting to its own magnitude when the
category has no cap entry), preserve non-spend amounts, and set
`amount_winsorised`. -/
def winsoriseRow (caps : String → Option ℚ) (r : Row) : Row :=
  if r.isSpend then
    { r with amountW := some (-(min |r.amount| ((caps r.category).getD |r.amount|))) }
  else { r with amountW := some r.amount }

/-- `winsorise_spend_amounts`. -/
def winsorise_spend_amounts (rows : List Row) (p : ℚ) : List Row :=
  rows.map (winsoriseRow (capFor rows p))

/-- The enrichment loop of `preprocess_transactions`: validate and enrich
every record in order, aborting the whole batch on the first invalid
record. -/
def enrichAll : List Tx → Except PreErr (List Row)
  | [] => .ok []
  | t :: ts => do
    let r ← enrichOne t
    let rest ← enrichAll ts
    pure (r :: rest)

/-- `preprocess_transactions` (= public `preprocess`): the enrichment loop
followed by in-place winsorisation of spend amounts. -/
def preprocess (txs : List Tx) : Except PreErr (List Row) := do
  let cleaned ← enrichAll txs
  pure (winsorise_spend_amounts cleaned winsorisePercentile)

/-! ### Monthly trends and forecast -/

/-- `trend_slopes` sub-dictionary of `compute_monthly_trends`. -/
structure TrendSlopes where
  totalSpend : ℚ
  totalIncome : ℚ
  categories : List (String × ℚ)
deriving DecidableEq

/-- Result of `forecast_next_month`. -/
structure Forecast where
  month : ℤ × ℤ
  primaryModel : String
  primaryValue : Option ℚ
  backstopModel : String
  backstopValue : Option ℚ
deriving DecidableEq

/-- Result dictionary of `compute_monthly_trends`; the `forecast` field is
absent there and only added by the `monthly_trends` wrapper (`none` until
then). -/
structure Trends where
  monthlySpend : List ((ℤ × ℤ) × ℚ)
  monthlyIncome : List ((ℤ × ℤ) × ℚ)
  spendMovingAverage : List ((ℤ × ℤ) × Option ℚ)
  incomeMovingAverage : List ((ℤ × ℤ) × Option ℚ)
  spendMomPct : List ((ℤ × ℤ) × Option ℚ)
  incomeMomPct : List ((ℤ × ℤ) × Option ℚ)
  categorySpend : List (String × List ((ℤ × ℤ) × ℚ))
  categoryShare : List ((ℤ × ℤ) × List (String × ℚ))
  trendSlopes : TrendSlopes
  forecast : Option Forecast
deriving DecidableEq

/-- The spend rows of a batch (`row.get("is_spend")` filter used by every
downstream stage). -/
def spendRowsOf (rows : List Row) : List Row := rows.filter (·.isSpend)

/-- The income rows reached by the `elif row.get("is_income")` branch of
`compute_monthly_trends` (not spend, and income). -/
def incomeRowsOf (rows : List Row) : List Row :=
  rows.filter (fun r => !r.isSpend && r.isIncome)

/-- `spend_totals[month]`: total winsorised spend magnitude of a month. -/
def spendTotalFor (srows : List Row) (m : ℤ × ℤ) : ℚ :=
  ((srows.filter (fun r => decide (r.monthKey = m))).map (fun r => |r.amt|)).sum

/-- `income_totals[month]`: total (signed) income of a month. -/
def incomeTotalFor (irows : List Row) (m : ℤ × ℤ) : ℚ :=
  ((irows.filter (fun r => decide (r.monthKey = m))).map (fun r => r.amt)).sum

/-- `category_totals[category][month]`. -/
def catMonthTotal (srows : List Row) (cat : String) (m : ℤ × ℤ) : ℚ :=
  ((srows.filter (fun r => decide (r.category = cat) && decide (r.monthKey = m))).map
    (fun r => |r.amt|)).sum

/-- `month_over_month`: percentage deltas keyed by month, first the months
from index 1 on (in order), then — via `setdefault`, and the months of a
series are pairwise distinct — the first month mapped to `None`. -/
def month_over_month (series : List ((ℤ × ℤ) × ℚ)) : List ((ℤ × ℤ) × Option ℚ) :=
  match series with
  | [] => []
  | first :: _ =>
    (((List.range series.length).drop 1).map (fun idx =>
      ((series.getD idx ((0, 0), 0)).1,
        pct_change (series.getD idx ((0, 0), 0)).2 (series.getD (idx - 1) ((0, 0), 0)).2)))
      ++ [(first.1, none)]

/-- `compute_category_share`: per month with nonzero total, each category's
share of that month's spend; months and categories with zero value are
skipped (so a month key appears only if some category share was written). -/
def compute_category_share (monthlySpend : List ((ℤ × ℤ) × ℚ))
    (categorySpend : List (String × List ((ℤ × ℤ) × ℚ))) :
    List ((ℤ × ℤ) × List (String × ℚ)) :=
  monthlySpend.filterMap (fun mt =>
    if mt.2 = 0 then none else
    let entries := categorySpend.filterMap (fun cs =>
      let v := (cs.2.lookup mt.1).getD 0
      if v = 0 then none else some (cs.1, v / mt.2))
    if entries = [] then none else some (mt.1, entries))

/-- `compute_monthly_trends`. -/
def compute_monthly_trends (rows : List Row) : Trends :=
  let srows := spendRowsOf rows
  let irows := incomeRowsOf rows
  let spendMonths := insertOrder (srows.map (·.monthKey))
  let incomeMonths := insertOrder (irows.map (·.monthKey))
  let months := sortBy lexLe (insertOrder (spendMonths ++ incomeMonths))
  let monthlySpend := months.map (fun m => (m, spendTotalFor srows m))
  let monthlyIncome := months.map (fun m => (m, incomeTotalFor irows m))
  let spendVals := monthlySpend.map (·.2)
  let incomeVals := monthlyIncome.map (·.2)
  let cats := insertOrder (srows.map (·.category))
  let categorySpend := cats.map (fun c => (c, months.map (fun m => (m, catMonthTotal srows c m))))
  { monthlySpend := monthlySpend
    monthlyIncome := monthlyIncome
    spendMovingAverage := months.zip (rolling_mean spendVals 3)
    incomeMovingAverage := months.zip (rolling_mean incomeVals 3)
    spendMomPct := month_over_month monthlySpend
    incomeMomPct := month_over_month monthlyIncome
    categorySpend := categorySpend
    categoryShare := compute_category_share monthlySpend categorySpend
    trendSlopes :=
      { totalSpend := linear_trend spendVals
        totalIncome := linear_trend incomeVals
        categories := categorySpend.map (fun cs => (cs.1, linear_trend (cs.2.map (·.2)))) }
    forecast := none }

/-- `forecast_next_month`. -/
def forecast_next_month (monthlySpend : List ((ℤ × ℤ) × ℚ)) : Option Forecast :=
  if monthlySpend = [] then none else
  let months := monthlySpend.map (·.1)
  let values := monthlySpend.map (·.2)
  let lastMonth := months.getLastD (0, 0)
  let nextM := add_months lastMonth 1
  let seasonalKey := add_months nextM (-12)
  let seasonal0 := monthlySpend.lookup seasonalKey
  let seasonal := if seasonal0 = none ∧ values ≠ [] then some (values.getLastD 0) else seasonal0
  let movingAvgValue : Option ℚ :=
    if values.length ≥ 3 then some ((values.drop (values.length - 3)).sum / 3) else none
  let primaryModel := if seasonal.isSome then "seasonal_naive" else "moving_average"
  let primaryValue := if seasonal.isSome then seasonal else movingAvgValue
  let backstopModel := if primaryModel = "seasonal_naive" then "moving_average" else "seasonal_naive"
  let backstopValue := if primaryModel = "seasonal_naive" then movingAvgValue else seasonal
  if primaryValue = none ∧ backstopValue = none then none else
  some ⟨nextM, primaryModel, primaryValue, backstopModel, backstopValue⟩

/-- `monthly_trends`: trends plus the forecast field. -/
def monthly_trends (rows : List Row) : Trends :=
  let t := compute_monthly_trends rows
  { t with forecast := forecast_next_month t.monthlySpend }

/-! ### Pattern mining -/

structure HHIDetail where
  hhi : ℚ
  topMerchant : String
  topShare : ℚ
  total : ℚ
deriving DecidableEq

structure LeakWeek where
  week : ℤ × ℤ
  count : ℕ
  avgAmount : ℚ
  total : ℚ
  rising : Bool
deriving DecidableEq

structure Squeeze where
  week : ℤ × ℤ
  net : ℚ
  followingWeek : ℤ × ℤ
deriving DecidableEq

structure Cashflow where
  weeklyNet : List ((ℤ × ℤ) × ℚ)
  squeezes : List Squeeze
deriving DecidableEq

structure RidehailUsage where
  month : ℤ × ℤ
  tripCount : ℕ
  spend : ℚ
  avgTicket : ℚ
deriving DecidableEq

/-- Result dictionary of `pattern_mining`; `lateNight` maps a category to
its (share, amount) pair, `ridehailUsage` is `none` for the empty dict. -/
structure Patterns where
  dowPeaks : List (String × List String)
  timeBuckets : List (String × List (String × ℚ))
  merchantHHI : List (String × ℚ)
  merchantHHIDetails : List (String × HHIDetail)
  smallLeaks : List LeakWeek
  cashflow : Cashflow
  lateNight : List (String × (ℚ × ℚ))
  ridehailUsage : Option RidehailUsage
  category30dSpend : List (String × ℚ)
deriving DecidableEq

/-- The all-empty `pattern_mining` result returned when there are no
spend rows. -/
def emptyPatterns : Patterns := ⟨[], [], [], [], [], ⟨[], []⟩, [], none, []⟩

/-- `compute_small_leaks`: weekly count/total of small non-necessity spend
transactions; weeks above the count limit are reported, with `rising`
comparing against the previous leak week's count. -/
def compute_small_leaks (srows : List Row) : List LeakWeek :=
  let leakRows := srows.filter (fun r =>
    decide (|r.amount| < smallTxThreshold) && !(NECESSITY_CATEGORIES.contains r.category))
  let weeks := sortBy lexLe (insertOrder (leakRows.map (·.weekKey)))
  let countOf := fun (w : ℤ × ℤ) => (leakRows.filter (fun r => decide (r.weekKey = w))).length
  let totalOf := fun (w : ℤ × ℤ) =>
    ((leakRows.filter (fun r => decide (r.weekKey = w))).map (fun r => |r.amount|)).sum
  (List.range weeks.length).filterMap (fun idx =>
    let w := weeks.getD idx (0, 0)
    let count := countOf w
    let avg := if count ≠ 0 then totalOf w / (count : ℚ) else 0
    let rising :=
      if idx = 0 then false
      else
        let pc := countOf (weeks.getD (idx - 1) (0, 0))
        if pc > 0 then decide ((count : ℚ) > (pc : ℚ) * (1 + dripRiseMinDelta)) else false
    if count > smallTxWeekLimit then some ⟨w, count, avg, totalOf w, rising⟩ else none)

/-- `compute_cashflow`: signed weekly net over all rows, and squeezes
(negative-net week immediately followed by a positive-net week). -/
def compute_cashflow (rows : List Row) : Cashflow :=
  let weeks := sortBy lexLe (insertOrder (rows.map (·.weekKey)))
  let netOf := fun (w : ℤ × ℤ) =>
    ((rows.filter (fun r => decide (r.weekKey = w))).map (·.amount)).sum
  let ordered := weeks.map (fun w => (w, netOf w))
  let squeezes := (List.range (weeks.length - 1)).filterMap (fun idx =>
    let c := ordered.getD idx ((0, 0), 0)
    let n := ordered.getD (idx + 1) ((0, 0), 0)
    if c.2 < 0 ∧ n.2 > 0 then some (Squeeze.mk c.1 c.2 n.1) else none)
  ⟨ordered, squeezes⟩

/-- `compute_ridehail_usage`: stats for the most recent month containing
ride-hail spend. -/
def compute_ridehail_usage (srows : List Row) : Option RidehailUsage :=
  let rh := srows.filter (fun r => RIDEHAIL_CATEGORIES.contains r.category)
  if rh = [] then none else
  let currentMonth := listMaxLex (rh.map (·.monthKey))
  let currentRows := rh.filter (fun r => decide (r.monthKey = currentMonth))
  let count := currentRows.length
  let spend := (currentRows.map (fun r => |r.amount|)).sum
  some ⟨currentMonth, count, spend, if count ≠ 0 then spend / (count : ℚ) else 0⟩

/-- `pattern_mining`. -/
def pattern_mining (rows : List Row) : Patterns :=
  let srows := rows.filter (·.isSpend)
  if srows = [] then emptyPatterns else
  let latest := listMaxI (rows.map (·.dtSec))
  let cutoff8w := latest - hhiWindowWeeks * 7 * 86400
  let cutoff30d := latest - 30 * 86400
  let cats := insertOrder (srows.map (·.category))
  let catTotal := fun (c : String) =>
    ((srows.filter (fun r => decide (r.category = c))).map (fun r => |r.amount|)).sum
  let catDowAmt := fun (c : String) (d : ℤ) =>
    ((srows.filter (fun r => decide (r.category = c) && decide (r.dow = d))).map
      (fun r => |r.amount|)).sum
  let catBucketAmt := fun (c : String) (b : String) =>
    ((srows.filter (fun r => decide (r.category = c) && decide (r.timeBucket = b))).map
      (fun r => |r.amount|)).sum
  let dowPeaks := cats.filterMap (fun c =>
    let total := catTotal c
    if total = 0 then none else
    let dows := insertOrder ((srows.filter (fun r => decide (r.category = c))).map (·.dow))
    if dows = [] then none else
    let share := fun (d : ℤ) => catDowAmt c d / total
    let maxShare := listMaxQ (dows.map share)
    let peaks := dows.filterMap (fun d =>
      if share d ≥ maxShare - 0.05 ∧ share d ≥ 0.2 then some (DOW_NAMES.getD d.toNat "") else none)
    if peaks = [] then none else some (c, peaks))
  let timeBuckets := cats.filterMap (fun c =>
    let total := catTotal c
    if total = 0 then none else
    let shares := TIME_BUCKETS.map (fun b => (b, catBucketAmt c b / total))
    if shares = [] then none else some (c, shares))
  let lateNight := cats.filterMap (fun c =>
    let total := catTotal c
    if total = 0 then none else
    let lateShare := catBucketAmt c "evening" / total + catBucketAmt c "late" / total
    let lateAmount := catBucketAmt c "evening" + catBucketAmt c "late"
    if lateShare = 0 then none else some (c, (lateShare, lateAmount)))
  let wrows := srows.filter (fun r => decide (r.dtSec ≥ cutoff8w))
  let wcats := insertOrder (wrows.map (·.category))
  let hhiPairs : List (String × ℚ × HHIDetail) := wcats.filterMap (fun c =>
    let crows := wrows.filter (fun r => decide (r.category = c))
    let merchants := insertOrder (crows.map (·.merchantNorm))
    let amtOf := fun (m : String) =>
      ((crows.filter (fun r => decide (r.merchantNorm = m))).map (fun r => |r.amount|)).sum
    let total := (crows.map (fun r => |r.amount|)).sum
    if total = 0 then none else
    let shares := merchants.filterMap (fun m =>
      if amtOf m = 0 then none else some (m, amtOf m / total))
    let hhi := (shares.map (fun s => s.2 ^ 2)).sum
    match maxByFirst (fun (s : String × ℚ) => s.2) shares with
    | none => none  -- unreachable: a nonzero total forces a nonzero share
    | some top => some (c, hhi, HHIDetail.mk hhi top.1 top.2 total))
  let cats30 := insertOrder ((srows.filter (fun r => decide (r.dtSec ≥ cutoff30d))).map (·.category))
  let category30d := cats30.map (fun c =>
    (c, ((srows.filter (fun r => decide (r.dtSec ≥ cutoff30d) && decide (r.category = c))).map
      (fun r => |r.amount|)).sum))
  { dowPeaks := dowPeaks
    timeBuckets := timeBuckets
    merchantHHI := hhiPairs.map (fun p => (p.1, p.2.1))
    merchantHHIDetails := hhiPairs.map (fun p => (p.1, p.2.2))
    smallLeaks := compute_small_leaks srows
    cashflow := compute_cashflow rows
    lateNight := lateNight
    ridehailUsage := compute_ridehail_usage srows
    category30dSpend := category30d }

/-! ### Recurring charges -/

/-- A recurring-charge entry.  The source stores `cv = stdev/mean` (in
general irrational); the model stores its exact square `cvSq = var/mean²`,
and the stability gate is expressed exactly on variances. -/
structure RecurringEntry where
  merchant : String
  merchantKey : String
  category : String
  intervalDays : ℤ
  medianAmount : ℚ
  payDayOfMonth : ℤ
  occurrences : ℕ
  ghostSubscription : Bool
  rtype : String
  cvSq : ℚ
deriving DecidableEq

/-- `match_interval`: the first of 7/14/30 within the tolerance. -/
def match_interval (value : ℚ) : Option ℤ :=
  if |value - 7| ≤ recurringIntervalTolerance then some 7
  else if |value - 14| ≤ recurringIntervalTolerance then some 14
  else if |value - 30| ≤ recurringIntervalTolerance then some 30
  else none

/-- `category_merchants_last60[cat]`: normalized merchants of all rows of
the category within the trailing 60 days. -/
def merchantsInCatLast60 (rows : List Row) (cutoff60 : ℤ) (cat : String) : List String :=
  insertOrder ((rows.filter (fun r =>
    decide (r.dtSec ≥ cutoff60) && decide (r.category = cat))).map (·.merchantNorm))

/-- Per-merchant body of the `detect_recurring` loop.  The coefficient of
variation gate `cv > threshold` (with `cv = stdev/mean`, `mean > 0`) is
expressed exactly as `variance > (threshold·mean)²`. -/
def processMerchant (rows : List Row) (cutoff60 : ℤ) (merchantKey : String)
    (txsIn : List Row) : Option RecurringEntry :=
  if txsIn.length < recurringMinOccurrences then none else
  let txs := sortBy (fun a b => decide (a.dtSec ≤ b.dtSec)) txsIn
  let amounts := txs.map (fun t => |t.amount|)
  let avgAmount := amounts.sum / (amounts.length : ℚ)
  if avgAmount = 0 then none else
  let varAmount := if amounts.length > 1 then sampleVar amounts else 0
  if varAmount > (recurringCvThreshold * avgAmount) ^ 2 then none else
  let intervals : List ℤ := (txs.zip txs.tail).map (fun p => max (p.2.day - p.1.day) 1)
  if intervals = [] then none else
  let medInterval := qmedian (intervals.map (fun i => (i : ℚ)))
  match match_interval medInterval with
  | none => none
  | some interval =>
    let payDay := pyRound (qmedian (txs.map (fun t => (t.ts.day : ℚ))))
    let category := mostCommon (txs.map (·.category)) ""
    let displayName := mostCommon (txs.map (·.merchant)) ""
    let medianAmount := -(qmedian amounts)
    let others := (merchantsInCatLast60 rows cutoff60 category).filter (fun m => m ≠ merchantKey)
    let ghost := decide (interval = 30) && decide (others = [])
    let rtype :=
      if |medianAmount| > 200 ∧ (interval = 30 ∨ RENT_CATEGORIES.contains category)
      then "rent" else "subscription"
    some ⟨displayName, merchantKey, category, interval, medianAmount, payDay,
      txs.length, ghost, rtype, varAmount / avgAmount ^ 2⟩

/-- `detect_recurring`: group spend rows by normalized merchant, evaluate
each group, sort descending by absolute median amount. -/
def detect_recurring (rows : List Row) : List RecurringEntry :=
  let srows := rows.filter (·.isSpend)
  if srows = [] then [] else
  let latest := listMaxI (rows.map (·.dtSec))
  let cutoff60 := latest - 60 * 86400
  let keys := insertOrder (srows.map (·.merchantNorm))
  let entries := keys.filterMap (fun m =>
    processMerchant rows cutoff60 m (srows.filter (fun r => decide (r.merchantNorm = m))))
  sortBy (fun a b => decide (|a.medianAmount| ≥ |b.medianAmount|)) entries

/-! ### Anomaly detection -/

/-- The `period` field of an anomaly: a week key for rolling spikes, the
row's timestamp otherwise. -/
inductive APeriod where
  | week (w : ℤ × ℤ)
  | stamp (t : Ts)
deriving DecidableEq

/-- An anomaly event.  Spike entries additionally carry the z-score in the
source — irrational over ℚ and not needed by any consumer modelled here;
the exact flag condition lives in `spikeEntriesFor`. -/
structure Anomaly where
  category : String
  period : APeriod
  amount : ℚ
  reason : String
  merchant : Option String
deriving DecidableEq

/-- Rolling-spike detector over one category's chronologically ordered
weekly totals (inner loop of `detect_anomalies`).  With a positive
threshold t, `z > t` (z = (curr − mean)/stdev, stdev > 0) is exactly
`curr − mean > 0 ∧ (curr − mean)² > t²·variance`. -/
def spikeEntriesFor (category : String) (weekVals : List ((ℤ × ℤ) × ℚ)) : List Anomaly :=
  (List.range weekVals.length).filterMap (fun idx => show Option Anomaly from
    if idx = 0 then none else
    let windowStart := idx - anomalyWindowWeeks
    let history := ((weekVals.map (·.2)).drop windowStart).take (idx - windowStart)
    if history.length < 2 then none else
    let curr := (weekVals.getD idx ((0, 0), 0)).2
    let mh := qmean history
    let vh := sampleVar history
    let prev := (weekVals.getD (idx - 1) ((0, 0), 0)).2
    if vh = 0 then none else
    let pd := (pct_change curr prev).getD 0
    if (curr - mh > 0 ∧ (curr - mh) ^ (2 : ℕ) > anomalyZThreshold ^ (2 : ℕ) * vh) ∧ pd > anomalyWeekDelta
    then some ⟨category, .week (weekVals.getD idx ((0, 0), 0)).1, curr, "spike_vs_rolling", none⟩
    else none)

/-- Near-duplicate scan over chronologically sorted spend rows, carrying the
`seen` map from (merchant, cents-rounded amount) to the latest timestamp. -/
def dupScan : List Row → List ((String × ℚ) × ℤ) → List Anomaly
  | [], _ => []
  | r :: rest, seen =>
    let key := (r.merchantNorm, roundTo2 r.amount)
    let hit := match seen.lookup key with
      | some prevSec =>
        if |r.dtSec - prevSec| ≤ 300 then
          [⟨r.category, .stamp r.ts, |r.amount|, "potential_duplicate", some r.merchant⟩]
        else []
      | none => []
    hit ++ dupScan rest ((key, r.dtSec) :: seen)

/-- One category's chronologically ordered weekly spend totals
(`weekly_category[category]`, weeks sorted via `week_key_to_date`). -/
def weeklyCategoryTotals (srows : List Row) (c : String) : List ((ℤ × ℤ) × ℚ) :=
  let crows := srows.filter (fun r => decide (r.category = c))
  let weeks := sortBy lexLe (insertOrder (crows.map (·.weekKey)))
  weeks.map (fun w =>
    (w, ((crows.filter (fun r => decide (r.weekKey = w))).map (fun r => |r.amount|)).sum))

/-- Body of `detect_anomalies`, which only reads the spend rows:
rolling spikes, then global 99th-percentile outliers (non-rent), then
near-duplicates. -/
def detectAnomaliesSpend (srows : List Row) : List Anomaly :=
  if srows = [] then [] else
  let cats := insertOrder (srows.map (·.category))
  let spikes := (cats.map (fun c => spikeEntriesFor c (weeklyCategoryTotals srows c))).flatten
  let nonRentValues := (srows.filter (fun r => !(RENT_CATEGORIES.contains r.category))).map
    (fun r => |r.amount|)
  let pct := if nonRentValues ≠ [] then percentile_value nonRentValues 0.99 else 0
  let singles := if pct = 0 then [] else
    srows.filterMap (fun r =>
      if RENT_CATEGORIES.contains r.category then none
      else if |r.amount| ≥ pct ∧ |r.amount| > 0
      then some ⟨r.category, .stamp r.ts, |r.amount|, "single_day_spike", some r.merchant⟩
      else none)
  let dups := dupScan (sortBy (fun a b => decide (a.dtSec ≤ b.dtSec)) srows) []
  spikes ++ singles ++ dups

/-- `detect_anomalies`. -/
def detect_anomalies (rows : List Row) : List Anomaly :=
  detectAnomaliesSpend (rows.filter (·.isSpend))

/-! ### Variance and opportunity sizing -/

structure CatVariance where
  baseline : ℚ
  projection : ℚ
  variance : ℚ
  opportunity : ℚ
  spentSoFar : ℚ
  dayOfMonth : ℤ
  momPct : Option ℚ
deriving DecidableEq

structure Variances where
  perCategory : List (String × CatVariance)
  currentMonth : Option (ℤ × ℤ)
  totalProjection : ℚ
  totalBaseline : ℚ
deriving DecidableEq

def emptyVariances : Variances := ⟨[], none, 0, 0⟩

/-- Body of `compute_variances`, which only reads the spend rows. -/
def computeVariancesSpend (srows : List Row) (baselines : Option (List (String × ℚ))) :
    Variances :=
  if srows = [] then emptyVariances else
  let months := sortBy lexLe (insertOrder (srows.map (·.monthKey)))
  if months = [] then emptyVariances else
  let currentMonth := months.getLastD (0, 0)
  let previousMonths := (months.dropLast).drop (months.dropLast.length - 3)
  let cats := insertOrder (srows.map (·.category))
  let catMonth := fun (c : String) (m : ℤ × ℤ) =>
    ((srows.filter (fun r => decide (r.category = c) && decide (r.monthKey = m))).map
      (fun r => |r.amount|)).sum
  let daysInCurrent := month_days currentMonth
  let dayOfMonth := listMaxI
    ((srows.filter (fun r => decide (r.monthKey = currentMonth))).map (·.ts.day))
  let perCat := cats.map (fun c =>
    let ext : Option ℚ := match baselines with
      | some bl => if bl = [] then none else bl.lookup c
      | none => none
    let baseline : ℚ := match ext with
      | some b => b
      | none =>
        let history := previousMonths.filterMap (fun m =>
          let v := catMonth c m
          if v > 0 then some v else none)
        if history ≠ [] then qmedian history
        else if previousMonths ≠ [] then catMonth c (previousMonths.getLastD (0, 0))
        else 0
    let spentSoFar := catMonth c currentMonth
    let projection :=
      if dayOfMonth ≠ 0 ∧ dayOfMonth < daysInCurrent
      then spentSoFar / ((max dayOfMonth 1 : ℤ) : ℚ) * (daysInCurrent : ℚ)
      else spentSoFar
    let variance := projection - baseline
    let opportunity :=
      if baseline > 0 ∧ variance > 0 then min variance (baseline * opportunityCapRatio) else 0
    let momPct :=
      if previousMonths ≠ []
      then pct_change (catMonth c currentMonth) (catMonth c (previousMonths.getLastD (0, 0)))
      else none
    (c, CatVariance.mk baseline projection variance opportunity spentSoFar dayOfMonth momPct))
  { perCategory := perCat
    currentMonth := some currentMonth
    totalProjection := (perCat.map (fun p => p.2.projection)).sum
    totalBaseline := (perCat.map (fun p => p.2.baseline)).sum }

/-- `compute_variances`. -/
def compute_variances (rows : List Row) (baselines : Option (List (String × ℚ))) : Variances :=
  computeVariancesSpend (rows.filter (·.isSpend)) baselines

/-! ### Suggestions and challenges -/

/-- A suggestion.  The presentational fields of the source (`title`,
`insight`, `evidence`, `action`) are free-text renderings of the same
numbers and are not modelled; the semantic fields are kept. -/
structure Suggestion where
  category : String
  stype : String
  expectedSaving : ℚ
  confidence : ℚ
deriving DecidableEq

/-- `subscription_suggestions` (its `patterns` parameter is unused in the
source body). -/
def subscription_suggestions (recurring : List RecurringEntry) : List Suggestion :=
  recurring.filterMap (fun e =>
    if e.rtype ≠ "subscription" && !e.ghostSubscription then none
    else if e.intervalDays ≠ 30 then none
    else some ⟨e.category, "subscription", |e.medianAmount|, 0.75⟩)

/-- `merchant_swap_suggestions`. -/
def merchant_swap_suggestions (patterns : Patterns) : List Suggestion :=
  patterns.merchantHHIDetails.filterMap (fun ci =>
    if !(SWAP_ELIGIBLE_CATEGORIES.contains ci.1) then none
    else if ci.2.hhi ≤ hhiHighThreshold then none
    else some ⟨ci.1, "swap", ci.2.total * 0.1 * ci.2.topShare, 0.6⟩)

/-- `drip_spend_suggestions`: one suggestion from the most recent flagged
leak week, if any. -/
def drip_spend_suggestions (patterns : Patterns) : List Suggestion :=
  match patterns.smallLeaks.getLast? with
  | none => []
  | some latest =>
    [⟨"misc", "behavioural_nudge",
      ((max 0 ((latest.count : ℤ) - (smallTxWeekLimit : ℤ)) : ℤ) : ℚ) * latest.avgAmount * 4,
      0.55⟩]

/-- `late_night_suggestions`. -/
def late_night_suggestions (patterns : Patterns) : List Suggestion :=
  patterns.lateNight.filterMap (fun cs =>
    if !(LATE_NIGHT_CATEGORIES.contains cs.1) then none
    else if cs.2.1 < 0.35 then none
    else some ⟨cs.1, "behavioural_nudge", cs.2.2 * 0.3, 0.6⟩)

/-- `ridehail_suggestions`. -/
def ridehail_suggestions (patterns : Patterns) : List Suggestion :=
  match patterns.ridehailUsage with
  | none => []
  | some u =>
    if u.tripCount ≤ 4 then []
    else [⟨"transport.ridehail", "behavioural_nudge", u.spend * 0.5, 0.5⟩]

/-- `cashflow_buffer_suggestions`. -/
def cashflow_buffer_suggestions (patterns : Patterns) (recurring : List RecurringEntry) :
    List Suggestion :=
  if patterns.cashflow.squeezes = [] ∨ recurring.filter (fun e => e.rtype = "rent") = []
  then []
  else [⟨"housing.rent", "cashflow", 0, 0.65⟩]

/-- `build_suggestions`: fixed generator order, capped at 10 (the `trends`,
`anomalies` and `variances` parameters are unused in the source body). -/
def build_suggestions (_trends : Trends) (patterns : Patterns)
    (recurring : List RecurringEntry) (_anomalies : List Anomaly)
    (_variances : Variances) : List Suggestion :=
  (subscription_suggestions recurring ++ merchant_swap_suggestions patterns ++
   drip_spend_suggestions patterns ++ late_night_suggestions patterns ++
   ridehail_suggestions patterns ++ cashflow_buffer_suggestions patterns recurring).take 10

/-- A challenge.  The constant `context` maps of the source are not
modelled; all measurable fields are kept. -/
structure Challenge where
  code : String
  name : String
  windowDays : ℤ
  targetKind : String
  target : ℚ
  categoryScope : List String
  rewardPoints : ℤ
  expectedSaving : ℚ
  successCriteria : String
deriving DecidableEq

/-- `build_challenges`: up to four candidates, sorted descending by expected
saving, truncated to 3. -/
def build_challenges (suggestions : List Suggestion) (patterns : Patterns)
    (variances : Variances) : List Challenge :=
  let c1 : List Challenge := match variances.perCategory.lookup "groceries" with
    | some gv =>
      if gv.baseline > 0 then
        [⟨"GROCERY_TRIM_14D", "Trim Groceries by 10%", 14, "amount",
          round_to_nearest_5 (gv.baseline * 0.9 * (14 / 30)), ["groceries"], 120,
          gv.baseline * 0.1 * (14 / 30), "spend(groceries,14d) <= 0.9 * baseline"⟩]
      else []
    | none => []
  let c2 : List Challenge := match patterns.lateNight.lookup "eating_out" with
    | some stats =>
      [⟨"NO_LATE_NIGHT_7D", "No Late-Night Orders", 7, "amount", 0, ["eating_out"], 100,
        stats.2 / 4, "sum(amount where cat=eating_out and hour>=21) == 0"⟩]
    | none => []
  let c3 : List Challenge := match patterns.ridehailUsage with
    | some rh =>
      if rh.tripCount ≥ 4 then
        [⟨"RIDEHAIL_SWAP_14D", "Swap 4 Ride-Hail Trips", 14, "count",
          ((max 0 ((rh.tripCount : ℤ) - 4) : ℤ) : ℚ), ["transport.ridehail"], 90,
          rh.spend * 0.4, "replace >=4 trips with non-ridehail options"⟩]
      else []
    | none => []
  let c4 : List Challenge := match suggestions.find? (fun s => s.stype = "subscription") with
    | some s =>
      [⟨"SUBSCRIPTION_AUDIT_30D", "Cancel One Subscription", 30, "count", 1, [s.category], 80,
        s.expectedSaving, "cancel_or_downgrade >=1 recurring charge"⟩]
    | none => []
  (sortBy (fun a b => decide (a.expectedSaving ≥ b.expectedSaving)) (c1 ++ c2 ++ c3 ++ c4)).take 3

/-! ### Summary and orchestration -/

/-- The report summary.  `period` is the string
`"<first-month> to <last-month>"` in the source, or `""` for an empty
batch: modelled as the pair of first/last month keys, `none` for `""`. -/
structure Summary where
  period : Option ((ℤ × ℤ) × (ℤ × ℤ))
  totalSpend30d : ℚ
  projectedSpendCurrMonth : ℚ
  topRisingCategories : List (String × ℚ)
  topSavingOpportunities : List (String × ℚ)
deriving DecidableEq

/-- The `patterns` sub-dictionary of the final report. -/
structure ReportPatterns where
  dowPeaks : List (String × List String)
  timeBuckets : List (String × List (String × ℚ))
  merchantHHI : List (String × ℚ)
  smallLeaks : List LeakWeek
  cashflowSqueezes : List Squeeze
deriving DecidableEq

structure Report where
  summary : Summary
  patterns : ReportPatterns
  recurring : List RecurringEntry
  anomalies : List Anomaly
  suggestions : List Suggestion
  challenges : List Challenge
deriving DecidableEq

/-- `compute_top_rising_categories`: categories of the current month with
spend ≥ 15 and month-over-month growth ≥ threshold (a `None` or zero
change is falsy and skipped), sorted descending by growth, top 3. -/
def compute_top_rising_categories (trends : Trends) : List (String × ℚ) :=
  let months := trends.monthlySpend.map (·.1)
  if months.length < 2 then [] else
  let currentMonth := months.getLastD (0, 0)
  let previousMonth := months.getD (months.length - 2) (0, 0)
  let rising : List (ℚ × (String × ℚ)) := trends.categorySpend.filterMap (fun cs =>
    let curr := (cs.2.lookup currentMonth).getD 0
    let prev := (cs.2.lookup previousMonth).getD 0
    if curr < 15 then none else
    match pct_change curr prev with
    | some ch => if ch ≠ 0 ∧ ch ≥ risingMomThreshold then some (ch, (cs.1, ch)) else none
    | none => none)
  ((sortBy (fun a b => decide (a.1 ≥ b.1)) rising).take 3).map (·.2)

/-- `top_saving_opportunities`: categories with a nonzero (truthy)
opportunity, sorted descending by amount, top 3. -/
def top_saving_opportunities (variances : Variances) : List (String × ℚ) :=
  let candidates := variances.perCategory.filterMap (fun p =>
    if p.2.opportunity = 0 then none else some (p.1, p.2.opportunity))
  (sortBy (fun a b => decide (a.2 ≥ b.2)) candidates).take 3

/-- `summarise`. -/
def summarise (rows : List Row) (trends : Trends) (patterns : Patterns)
    (recurring : List RecurringEntry) (anomalies : List Anomaly)
    (suggestions : List Suggestion) (challenges : List Challenge)
    (variances : Variances) : Report :=
  let months := sortBy lexLe (insertOrder (rows.map (·.monthKey)))
  let period := match months with
    | [] => none
    | m :: _ => some (m, months.getLastD (0, 0))
  let totalSpend30d :=
    if rows = [] then 0
    else
      let cutoff := listMaxI (rows.map (·.dtSec)) - 30 * 86400
      ((rows.filter (fun r => r.isSpend && decide (r.dtSec ≥ cutoff))).map
        (fun r => |r.amount|)).sum
  { summary :=
      { period := period
        totalSpend30d := totalSpend30d
        projectedSpendCurrMonth := variances.totalProjection
        topRisingCategories := compute_top_rising_categories trends
        topSavingOpportunities := top_saving_opportunities variances }
    patterns :=
      { dowPeaks := patterns.dowPeaks
        timeBuckets := patterns.timeBuckets
        merchantHHI := patterns.merchantHHI
        smallLeaks := patterns.smallLeaks
        cashflowSqueezes := patterns.cashflow.squeezes }
    recurring := recurring
    anomalies := anomalies
    suggestions := suggestions
    challenges := challenges }

/-- `analyse_spending` (= `analyze_transactions`): the full pipeline. -/
def analyse_spending (txs : List Tx) : Except PreErr Report := do
  let rows ← preprocess txs
  let trends := monthly_trends rows
  let patterns := pattern_mining rows
  let recurring := detect_recurring rows
  let anomalies := detect_anomalies rows
  let variances := compute_variances rows none
  let suggestions := build_suggestions trends patterns recurring anomalies variances
  let challenges := build_challenges suggestions patterns variances
  pure (summarise rows trends patterns recurring anomalies suggestions challenges variances)

/-- The report produced for an empty batch: every component at its
documented empty/zero default. -/
def emptyReport : Report :=
  { summary :=
      { period := none
        totalSpend30d := 0
        projectedSpendCurrMonth := 0
        topRisingCategories := []
        topSavingOpportunities := [] }
    patterns :=
      { dowPeaks := []
        timeBuckets := []
        merchantHHI := []
        smallLeaks := []
        cashflowSqueezes := [] }
    recurring := []
    anomalies := []
    suggestions := []
    challenges := [] }

/-! ### Basic lemmas about the list helpers -/

instance exceptDecEq {ε α : Type} [DecidableEq ε] [DecidableEq α] :
    DecidableEq (Except ε α) := fun x y =>
  match x, y with
  | .ok a, .ok b => if h : a = b then isTrue (by rw [h]) else isFalse (by simp [h])
  | .error e, .error f => if h : e = f then isTrue (by rw [h]) else isFalse (by simp [h])
  | .ok _, .error _ => isFalse (by simp)
  | .error _, .ok _ => isFalse (by simp)

theorem mem_insertBy {α : Type} (le : α → α → Bool) (a x : α) (l : List α) :
    x ∈ insertBy le a l ↔ x = a ∨ x ∈ l := by
  induction l with
  | nil => simp [insertBy]
  | cons b t ih =>
    simp only [insertBy]
    split
    · simp [List.mem_cons]
    · simp only [List.mem_cons, ih]
      tauto

theorem mem_sortBy {α : Type} (le : α → α → Bool) (x : α) (l : List α) :
    x ∈ sortBy le l ↔ x ∈ l := by
  induction l with
  | nil => simp [sortBy]
  | cons b t ih =>
    simp only [sortBy, mem_insertBy, ih, List.mem_cons]

theorem length_insertBy {α : Type} (le : α → α → Bool) (a : α) (l : List α) :
    (insertBy le a l).length = l.length + 1 := by
  induction l with
  | nil => simp [insertBy]
  | cons b t ih =>
    simp only [insertBy]
    split <;> simp [ih]

theorem length_sortBy {α : Type} (le : α → α → Bool) (l : List α) :
    (sortBy le l).length = l.length := by
  induction l with
  | nil => simp [sortBy]
  | cons b t ih => simp [sortBy, length_insertBy, ih]

theorem mem_foldl_insert {α : Type} [DecidableEq α] (l acc : List α) (x : α) :
    (x ∈ l.foldl (fun acc a => if a ∈ acc then acc else acc ++ [a]) acc) ↔
      x ∈ acc ∨ x ∈ l := by
  induction l generalizing acc with
  | nil => simp
  | cons b t ih =>
    simp only [List.foldl_cons, ih, List.mem_cons]
    by_cases hb : b ∈ acc
    · simp only [if_pos hb]
      constructor
      · tauto
      · rintro (h | h | h)
        · tauto
        · subst h; tauto
        · tauto
    · simp only [if_neg hb, List.mem_append, List.mem_singleton]
      tauto

theorem mem_insertOrder {α : Type} [DecidableEq α] (l : List α) (x : α) :
    x ∈ insertOrder l ↔ x ∈ l := by
  simp [insertOrder, mem_foldl_insert]

theorem getD_nonneg (l : List ℚ) (h : ∀ x ∈ l, 0 ≤ x) (i : ℕ) : 0 ≤ l.getD i 0 := by
  rcases Nat.lt_or_ge i l.length with hi | hi
  · rw [List.getD_eq_getElem l 0 hi]
    exact h _ (l.getElem_mem hi)
  · rw [List.getD_eq_default l 0 hi]

theorem interp_nonneg (a b w : ℚ) (ha : 0 ≤ a) (hb : 0 ≤ b) (h0 : 0 ≤ w) (h1 : w ≤ 1) :
    0 ≤ a * (1 - w) + b * w := by
  have : 0 ≤ 1 - w := by linarith
  nlinarith

theorem percentile_nonneg (values : List ℚ) (q : ℚ) (hv : ∀ x ∈ values, 0 ≤ x)
    (hq0 : 0 ≤ q) : 0 ≤ percentile_value values q := by
  by_cases hemp : values = []
  · simp [percentile_value, hemp]
  · have hvo : ∀ x ∈ sortBy (fun a b => decide (a ≤ b)) values, 0 ≤ x := by
      intro x hx
      exact hv x ((mem_sortBy _ _ _).mp hx)
    have hlen : 1 ≤ (sortBy (fun a b => decide (a ≤ b)) values).length := by
      rw [length_sortBy]
      rcases values with _ | ⟨a, t⟩
      · exact absurd rfl hemp
      · simp
    simp only [percentile_value, if_neg hemp]
    split
    · exact getD_nonneg _ hvo 0
    · have hpos : 0 ≤ ((sortBy (fun a b => decide (a ≤ b)) values).length - 1 : ℚ) * q := by
        apply mul_nonneg _ hq0
        have : (1 : ℚ) ≤ ((sortBy (fun a b => decide (a ≤ b)) values).length : ℚ) := by
          exact_mod_cast hlen
        linarith
      set pos := ((sortBy (fun a b => decide (a ≤ b)) values).length - 1 : ℚ) * q with hposdef
      have hfl : (0 : ℤ) ≤ ⌊pos⌋ := Int.le_floor.mpr (by exact_mod_cast hpos)
      have hcast : ((⌊pos⌋.toNat : ℚ)) = ((⌊pos⌋ : ℤ) : ℚ) := by
        exact_mod_cast Int.toNat_of_nonneg hfl
      apply interp_nonneg _ _ _ (getD_nonneg _ hvo _) (getD_nonneg _ hvo _)
      · rw [hcast]
        have := Int.floor_le pos
        linarith
      · rw [hcast]
        have := Int.lt_floor_add_one pos
        push_cast at this
        linarith

/-! ### Claim C7: empty batch -/

/-- C7: on the empty batch the full pipeline `analyse_spending` does not
raise (returns `.ok`) and every report component is at its documented
empty/zero default: empty period, zero 30-day spend and current-month
projection, and empty pattern maps, recurring, anomaly, suggestion and
challenge lists (the fields of `emptyReport`). -/
theorem c7_empty_batch_defaults : analyse_spending [] = .ok emptyReport := by decide

/-! ### Claim C6: suggestion and challenge caps -/

/-- C6: for every input batch accepted by the pipeline, the report's
suggestions list has at most 10 entries and its challenges list has at
most 3 entries. -/
theorem c6_suggestion_challenge_caps (txs : List Tx) (r : Report)
    (h : analyse_spending txs = .ok r) :
    r.suggestions.length ≤ 10 ∧ r.challenges.length ≤ 3 := by
  cases hp : preprocess txs with
  | error e => simp [analyse_spending, hp] at h
  | ok rows =>
    simp only [analyse_spending, hp, Except.bind, bind, pure, Except.pure] at h
    cases h
    constructor
    · simp [summarise, build_suggestions, List.length_take]
    · simp [summarise, build_challenges, List.length_take]

theorem c6_witness : emptyReport.suggestions.length ≤ 10 ∧ emptyReport.challenges.length ≤ 3 :=
  c6_suggestion_challenge_caps [] emptyReport (by decide)

/-! ### Claim C8: missing currency defaults to the display currency -/

/-- C8: a record with no currency field passes preprocessing validation
(the missing currency defaults to the display currency GBP), while a
present currency different from the display currency aborts the batch with
the unsupported-currency validation error. -/
theorem c8_currency_defaulting :
    (∀ t : Tx, t.currency = none → ∀ ts0, t.ts = some ts0 →
      ∃ rows, preprocess [t] = .ok rows) ∧
    (∀ (t : Tx) (rest : List Tx) (c : String), t.currency = some c → c ≠ DISPLAY_CURRENCY →
      preprocess (t :: rest) = .error (.unsupportedCurrency c)) := by
  constructor
  · intro t hc ts0 hts
    have he : ∃ r, enrichOne t = .ok r := by
      simp [enrichOne, hc, hts, DISPLAY_CURRENCY]
    obtain ⟨r, hr⟩ := he
    refine ⟨winsorise_spend_amounts [r] winsorisePercentile, ?_⟩
    simp [preprocess, enrichAll, hr, Except.bind, bind, pure, Except.pure]
  · intro t rest c hc hne
    have he : enrichOne t = .error (.unsupportedCurrency c) := by
      simp [enrichOne, hc, hne]
    simp [preprocess, enrichAll, he, Except.bind, bind, pure, Except.pure]

def c8txNoCurrency : Tx :=
  { amount := some (-10), currency := none, ts := some ⟨2024, 1, 5, 10, 0, 0⟩,
    merchant := some "Tesco", category := some "groceries" }

def c8txUsd : Tx :=
  { amount := some (-10), currency := some "USD", ts := some ⟨2024, 1, 5, 10, 0, 0⟩,
    merchant := some "Tesco", category := some "groceries" }

theorem c8_witness :
    (∃ rows, preprocess [c8txNoCurrency] = .ok rows) ∧
    preprocess [c8txUsd] = .error (.unsupportedCurrency "USD") :=
  ⟨c8_currency_defaulting.1 c8txNoCurrency rfl ⟨2024, 1, 5, 10, 0, 0⟩ rfl,
   c8_currency_defaulting.2 c8txUsd [] "USD" rfl (by decide)⟩

/-! ### Claim C1: rolling-spike anomaly on a constant history -/

/-- A convenience raw transaction for concrete batches. -/
def sampleTx (y m d : ℤ) (amt : ℚ) (mer cat : String) : Tx :=
  { amount := some amt, currency := some "GBP", ts := some ⟨y, m, d, 10, 0, 0⟩,
    merchant := some mer, category := some cat }

/-- One grocery spend per ISO week 2024-W01…W06 (consecutive Mondays),
with weekly totals 100,100,100,100,100,300. -/
def c1txs : List Tx :=
  [sampleTx 2024 1 1 (-100) "Tesco" "groceries", sampleTx 2024 1 8 (-100) "Tesco" "groceries",
   sampleTx 2024 1 15 (-100) "Tesco" "groceries", sampleTx 2024 1 22 (-100) "Tesco" "groceries",
   sampleTx 2024 1 29 (-100) "Tesco" "groceries", sampleTx 2024 2 5 (-300) "Tesco" "groceries"]

def c1rows : List Row := match preprocess c1txs with | .ok rows => rows | .error _ => []

/-- C1 counterexample: for the batch whose grocery weekly totals are
exactly [100,100,100,100,100,300], the anomaly detector emits no
`spike_vs_rolling` anomaly at all — the history of the last week is
constant, so its stdev is zero and the zero-stdev guard skips the week. -/
theorem c1_counterexample :
    weeklyCategoryTotals (c1rows.filter (·.isSpend)) "groceries" =
      [((2024, 1), 100), ((2024, 2), 100), ((2024, 3), 100), ((2024, 4), 100),
       ((2024, 5), 100), ((2024, 6), 300)] ∧
    (detect_anomalies c1rows).filter (fun a => decide (a.reason = "spike_vs_rolling")) = [] := by
  constructor
  · with_unfolding_all rfl
  · with_unfolding_all rfl

/-- Same batch, with the fifth weekly total changed from 100 to 110 so that
the trailing-window history has nonzero stdev. -/
def c1txsAmended : List Tx :=
  [sampleTx 2024 1 1 (-100) "Tesco" "groceries", sampleTx 2024 1 8 (-100) "Tesco" "groceries",
   sampleTx 2024 1 15 (-100) "Tesco" "groceries", sampleTx 2024 1 22 (-100) "Tesco" "groceries",
   sampleTx 2024 1 29 (-110) "Tesco" "groceries", sampleTx 2024 2 5 (-300) "Tesco" "groceries"]

def c1rowsAmended : List Row :=
  match preprocess c1txsAmended with | .ok rows => rows | .error _ => []

/-- C1 (amended): for weekly grocery totals [100,100,100,100,110,300] —
whose last-week history has nonzero stdev — the last week (2024-W06) is
flagged `spike_vs_rolling` (z > 2 and week-over-week change > 0.30); with
the original constant history the zero-stdev guard skips the week instead. -/
theorem c1_amended_spike_flagged :
    weeklyCategoryTotals (c1rowsAmended.filter (·.isSpend)) "groceries" =
      [((2024, 1), 100), ((2024, 2), 100), ((2024, 3), 100), ((2024, 4), 100),
       ((2024, 5), 110), ((2024, 6), 300)] ∧
    (detect_anomalies c1rowsAmended).filter (fun a => decide (a.reason = "spike_vs_rolling")) =
      [⟨"groceries", .week (2024, 6), 300, "spike_vs_rolling", none⟩] := by
  constructor
  · with_unfolding_all rfl
  · with_unfolding_all rfl

/-! ### Claim C2: forecast model selection -/

/-- Four observed months with no value 12 months before the forecast
month (2024-05). -/
def c2series : List ((ℤ × ℤ) × ℚ) :=
  [((2024, 1), 10), ((2024, 2), 20), ((2024, 3), 30), ((2024, 4), 40)]

/-- C2 counterexample: although the seasonal value (month 2023-05) is
absent from the series and the 3-month moving average (30) is computable,
the forecast's primary model is `seasonal_naive` with the last observed
value (40) — not the moving average — refuting the claimed fallback of the
primary model to the moving average. -/
theorem c2_counterexample :
    c2series.lookup (add_months (add_months (2024, 4) 1) (-12)) = none ∧
    3 ≤ c2series.length ∧
    forecast_next_month c2series =
      some ⟨(2024, 5), "seasonal_naive", some 40, "moving_average", some 30⟩ := by
  refine ⟨?_, ?_, ?_⟩
  · with_unfolding_all rfl
  · decide
  · with_unfolding_all rfl

/-- C2 (amended): for every non-empty monthly spend series the forecast is
`some`, its primary model is always `seasonal_naive` — the value recorded
12 months before the forecast month when present, otherwise the last
observed value — and the backstop is the 3-month trailing moving average
(`none` when fewer than 3 months are observed); the forecast is `none`
exactly when the series is empty. -/
theorem c2_amended_forecast_models :
    (∀ ms : List ((ℤ × ℤ) × ℚ), forecast_next_month ms = none ↔ ms = []) ∧
    (∀ ms : List ((ℤ × ℤ) × ℚ), ms ≠ [] →
      ∃ f, forecast_next_month ms = some f ∧
        f.primaryModel = "seasonal_naive" ∧
        f.primaryValue = some ((ms.lookup (add_months (add_months
          ((ms.map (·.1)).getLastD (0, 0)) 1) (-12))).getD ((ms.map (·.2)).getLastD 0)) ∧
        f.backstopModel = "moving_average" ∧
        f.backstopValue = (if 3 ≤ (ms.map (·.2)).length
          then some (((ms.map (·.2)).drop ((ms.map (·.2)).length - 3)).sum / 3) else none)) := by
  have key : ∀ ms : List ((ℤ × ℤ) × ℚ), ms ≠ [] →
      ∃ f, forecast_next_month ms = some f ∧
        f.primaryModel = "seasonal_naive" ∧
        f.primaryValue = some ((ms.lookup (add_months (add_months
          ((ms.map (·.1)).getLastD (0, 0)) 1) (-12))).getD ((ms.map (·.2)).getLastD 0)) ∧
        f.backstopModel = "moving_average" ∧
        f.backstopValue = (if 3 ≤ (ms.map (·.2)).length
          then some (((ms.map (·.2)).drop ((ms.map (·.2)).length - 3)).sum / 3) else none) := by
    intro ms hne
    have hvne : ms.map (·.2) ≠ ([] : List ℚ) := by simpa using hne
    cases hlook : ms.lookup (add_months (add_months ((ms.map (·.1)).getLastD (0, 0)) 1) (-12)) with
    | some v =>
      have hf : forecast_next_month ms = some
          ⟨add_months ((ms.map (·.1)).getLastD (0, 0)) 1, "seasonal_naive", some v,
            "moving_average",
            if 3 ≤ (ms.map (·.2)).length
            then some (((ms.map (·.2)).drop ((ms.map (·.2)).length - 3)).sum / 3) else none⟩ := by
        simp only [forecast_next_month, if_neg hne]
        rw [hlook]
        simp [hvne, ge_iff_le]
      exact ⟨_, hf, rfl, by simp [hlook], rfl, rfl⟩
    | none =>
      have hf : forecast_next_month ms = some
          ⟨add_months ((ms.map (·.1)).getLastD (0, 0)) 1, "seasonal_naive",
            some ((ms.map (·.2)).getLastD 0), "moving_average",
            if 3 ≤ (ms.map (·.2)).length
            then some (((ms.map (·.2)).drop ((ms.map (·.2)).length - 3)).sum / 3) else none⟩ := by
        simp only [forecast_next_month, if_neg hne]
        rw [hlook]
        simp [hvne, ge_iff_le]
      exact ⟨_, hf, rfl, by simp [hlook], rfl, rfl⟩
  refine ⟨fun ms => ⟨?_, ?_⟩, key⟩
  · intro h
    by_contra hne
    obtain ⟨f, hf, -⟩ := key ms hne
    rw [hf] at h
    cases h
  · intro h
    subst h
    simp [forecast_next_month]

def c2wSeries : List ((ℤ × ℤ) × ℚ) := [((2024, 1), 5)]

theorem c2_witness :
    forecast_next_month [] = none ∧
    ∃ f, forecast_next_month c2wSeries = some f ∧
      f.primaryModel = "seasonal_naive" ∧
      f.primaryValue = some ((c2wSeries.lookup (add_months (add_months
        ((c2wSeries.map (·.1)).getLastD (0, 0)) 1) (-12))).getD ((c2wSeries.map (·.2)).getLastD 0)) ∧
      f.backstopModel = "moving_average" ∧
      f.backstopValue = (if 3 ≤ (c2wSeries.map (·.2)).length
        then some (((c2wSeries.map (·.2)).drop ((c2wSeries.map (·.2)).length - 3)).sum / 3)
        else none) :=
  ⟨(c2_amended_forecast_models.1 []).mpr rfl,
   c2_amended_forecast_models.2 c2wSeries (by decide)⟩

/-! ### Claim C9: zero-amount transactions -/

theorem spendRowsOf_append_nospend (rows : List Row) (z : Row) (hz : z.isSpend = false) :
    spendRowsOf (rows ++ [z]) = spendRowsOf rows := by
  simp [spendRowsOf, List.filter_append, hz]

theorem incomeRowsOf_append_noincome (rows : List Row) (z : Row) (hz : z.isIncome = false) :
    incomeRowsOf (rows ++ [z]) = incomeRowsOf rows := by
  simp [incomeRowsOf, List.filter_append, hz]

/-- C9 (amended): a record with a missing amount field is accepted with
amount defaulted to 0; every zero-amount record is enriched with
`is_spend` and `is_income` both false, and such rows contribute to no
monthly spend or income total, no anomaly, and no variance aggregate
(appending one leaves those three stages unchanged).  Pattern mining and
recurring detection are deliberately excluded: a zero-amount row still
moves the latest-timestamp recency windows and enters the 60-day
category-merchant sets used for ghost detection (see the counterexample). -/
theorem c9_amended_zero_amount_neutral :
    (∀ (t : Tx) (r : Row), (t.amount = none ∨ t.amount = some 0) → enrichOne t = .ok r →
      r.amount = 0 ∧ r.isSpend = false ∧ r.isIncome = false) ∧
    (∀ (rows : List Row) (z : Row), z.isSpend = false → z.isIncome = false →
      compute_monthly_trends (rows ++ [z]) = compute_monthly_trends rows ∧
      detect_anomalies (rows ++ [z]) = detect_anomalies rows ∧
      ∀ b, compute_variances (rows ++ [z]) b = compute_variances rows b) := by
  constructor
  · intro t r hamt h
    have ha : t.amount.getD 0 = 0 := by rcases hamt with h0 | h0 <;> simp [h0]
    simp only [enrichOne] at h
    split at h
    · cases h
    · split at h
      · cases h
      · cases h
        refine ⟨ha, ?_, ?_⟩ <;> simp [ha]
  · intro rows z hz1 hz2
    have hfsp : (rows ++ [z]).filter (·.isSpend) = rows.filter (·.isSpend) := by
      simp [List.filter_append, hz1]
    refine ⟨?_, ?_, ?_⟩
    · unfold compute_monthly_trends
      rw [spendRowsOf_append_nospend rows z hz1, incomeRowsOf_append_noincome rows z hz2]
    · unfold detect_anomalies
      rw [hfsp]
    · intro b
      unfold compute_variances
      rw [hfsp]

def c9txsA : List Tx := [sampleTx 2024 1 5 (-42) "Tesco" "groceries"]

/-- A zero-amount record dated 95 days after the only spend record. -/
def c9zeroTx : Tx :=
  { amount := some 0, currency := some "GBP", ts := some ⟨2024, 4, 10, 12, 0, 0⟩,
    merchant := some "Noop", category := some "misc" }

def c9txsB : List Tx := c9txsA ++ [c9zeroTx]

def c9rowsA : List Row := match preprocess c9txsA with | .ok rows => rows | .error _ => []

def c9rowsB : List Row := match preprocess c9txsB with | .ok rows => rows | .error _ => []

/-- C9 counterexample: adding a single zero-amount record to a batch
changes the pattern-mining output — the zero row's later timestamp becomes
the `latest_dt` used for the trailing-30-day window, emptying
`category_30d_spend` — so a zero-amount transaction does contribute to
pattern aggregates, contrary to the claim. -/
theorem c9_counterexample :
    c9zeroTx.amount = some 0 ∧
    preprocess c9txsA = .ok c9rowsA ∧ preprocess c9txsB = .ok c9rowsB ∧
    pattern_mining c9rowsB ≠ pattern_mining c9rowsA := by
  refine ⟨rfl, by with_unfolding_all rfl, by with_unfolding_all rfl, ?_⟩
  intro h
  have h30 := congrArg Patterns.category30dSpend h
  rw [(by with_unfolding_all rfl :
    (pattern_mining c9rowsB).category30dSpend = ([] : List (String × ℚ)))] at h30
  rw [(by with_unfolding_all rfl :
    (pattern_mining c9rowsA).category30dSpend = [("groceries", 42)])] at h30
  simp at h30

/-- A default row used only as the unreachable fallback of concrete-row
definitions. -/
def dRow : Row :=
  { amount := 0, amountAbs := 0, ts := ⟨0, 0, 0, 0, 0, 0⟩, dtSec := 0, day := 0, dow := 0,
    hour := 0, week := 0, weekYear := 0, weekKey := (0, 0), weekStart := 0, monthKey := (0, 0),
    monthStart := 0, isSpend := false, isIncome := false, category := "", merchant := "",
    merchantNorm := "", timeBucket := "", isoWeekday := 0, amountW := none }

def c9wRowZ : Row := match enrichOne c9zeroTx with | .ok r => r | .error _ => dRow

theorem c9_witness :
    (c9wRowZ.amount = 0 ∧ c9wRowZ.isSpend = false ∧ c9wRowZ.isIncome = false) ∧
    compute_monthly_trends (c9rowsA ++ [c9wRowZ]) = compute_monthly_trends c9rowsA :=
  ⟨c9_amended_zero_amount_neutral.1 c9zeroTx c9wRowZ (Or.inr rfl) (by with_unfolding_all rfl),
   (c9_amended_zero_amount_neutral.2 c9rowsA c9wRowZ (by with_unfolding_all rfl)
     (by with_unfolding_all rfl)).1⟩

/-! ### Claim C3: winsorisation bounds -/

theorem winsoriseRow_preserves (caps : String → Option ℚ) (r : Row) :
    (winsoriseRow caps r).isSpend = r.isSpend ∧ (winsoriseRow caps r).category = r.category ∧
    (winsoriseRow caps r).amount = r.amount := by
  unfold winsoriseRow
  split <;> simp

theorem perCategoryValues_map (f : Row → Row)
    (hf : ∀ r, (f r).isSpend = r.isSpend ∧ (f r).category = r.category ∧ (f r).amount = r.amount)
    (rows : List Row) (cat : String) :
    perCategoryValues (rows.map f) cat = perCategoryValues rows cat := by
  induction rows with
  | nil => rfl
  | cons r t ih =>
    obtain ⟨h1, h2, h3⟩ := hf r
    unfold perCategoryValues at ih ⊢
    simp only [List.map_cons, List.filter_cons, h1, h2]
    by_cases hc : (r.isSpend && decide (r.category = cat)) = true
    · simp only [hc, if_true, List.map_cons, h3, ih]
    · simp only [hc, if_false, ih]
      simp only [Bool.not_eq_true] at hc
      simp [hc, ih]

/-- C3: after preprocessing a valid batch, every spend row's winsorised
magnitude is at most its raw magnitude and at most the linear-interpolated
99th-percentile cap of its normalised category's absolute spend magnitudes
over the whole batch; every non-spend row's `amount_winsorised` equals its
raw amount.  (`r.amt` is `row.get("amount_winsorised", row["amount"])`.) -/
theorem c3_winsorise_bounds (txs : List Tx) (rows : List Row)
    (h : preprocess txs = .ok rows) (r : Row) (hr : r ∈ rows) :
    (r.isSpend = true →
      |r.amt| ≤ |r.amount| ∧
      |r.amt| ≤ percentile_value (perCategoryValues rows r.category) winsorisePercentile) ∧
    (r.isSpend = false → r.amountW = some r.amount) := by
  cases he : enrichAll txs with
  | error e => simp [preprocess, he, Except.bind, bind] at h
  | ok cleaned =>
    simp only [preprocess, he, Except.bind, bind, pure, Except.pure] at h
    cases h
    obtain ⟨r0, hr0, rfl⟩ := List.mem_map.mp hr
    obtain ⟨hp1, hp2, hp3⟩ := winsoriseRow_preserves (capFor cleaned winsorisePercentile) r0
    have hpcv : perCategoryValues (winsorise_spend_amounts cleaned winsorisePercentile)
        (winsoriseRow (capFor cleaned winsorisePercentile) r0).category
        = perCategoryValues cleaned r0.category := by
      rw [hp2]
      exact perCategoryValues_map _ (winsoriseRow_preserves _) cleaned r0.category
    by_cases hs : r0.isSpend = true
    · refine ⟨fun _ => ?_, fun hcontra => by rw [hp1, hs] at hcontra; cases hcontra⟩
      have hmem : |r0.amount| ∈ perCategoryValues cleaned r0.category := by
        unfold perCategoryValues
        apply List.mem_map.mpr
        exact ⟨r0, List.mem_filter.mpr ⟨hr0, by simp [hs]⟩, rfl⟩
      have hne : perCategoryValues cleaned r0.category ≠ [] := by
        intro hnil
        rw [hnil] at hmem
        cases hmem
      have hcap : capFor cleaned winsorisePercentile r0.category =
          some (percentile_value (perCategoryValues cleaned r0.category) winsorisePercentile) := by
        unfold capFor
        simp [hne]
      have hnnvals : ∀ x ∈ perCategoryValues cleaned r0.category, 0 ≤ x := by
        intro x hx
        unfold perCategoryValues at hx
        obtain ⟨r1, -, rfl⟩ := List.mem_map.mp hx
        exact abs_nonneg _
      have hnncap : 0 ≤ percentile_value (perCategoryValues cleaned r0.category)
          winsorisePercentile :=
        percentile_nonneg _ _ hnnvals (by norm_num [winsorisePercentile])
      have hrw : winsoriseRow (capFor cleaned winsorisePercentile) r0 =
          { r0 with amountW := some (-(min |r0.amount|
            (percentile_value (perCategoryValues cleaned r0.category) winsorisePercentile))) } := by
        unfold winsoriseRow
        rw [if_pos hs, hcap]
        rfl
      rw [hpcv, hrw]
      set mv : ℚ := min |r0.amount|
        (percentile_value (perCategoryValues cleaned r0.category) winsorisePercentile) with hmv
      have hmin0 : 0 ≤ mv := by
        rw [hmv]
        exact le_min (abs_nonneg _) hnncap
      have hamt : ({ r0 with amountW := some (-mv) } : Row).amt = -mv := rfl
      have hamtraw : ({ r0 with amountW := some (-mv) } : Row).amount = r0.amount := rfl
      rw [hamt, hamtraw, abs_neg, abs_of_nonneg hmin0]
      constructor
      · rw [hmv]
        exact min_le_left _ _
      · rw [hmv]
        exact min_le_right _ _
    · simp only [Bool.not_eq_true] at hs
      refine ⟨fun hcontra => (by rw [hp1, hs] at hcontra; cases hcontra), fun _ => ?_⟩
      have hrw : winsoriseRow (capFor cleaned winsorisePercentile) r0 =
          { r0 with amountW := some r0.amount } := by
        unfold winsoriseRow
        rw [if_neg (by simp [hs])]
      rw [hrw]

theorem getD_mem {α : Type} (l : List α) (d : α) (i : ℕ) (h : i < l.length) : l.getD i d ∈ l := by
  rw [List.getD_eq_getElem l d h]
  exact l.getElem_mem h

/-- One coffee spend and one salary income: the winsorisation witness
batch. -/
def c3txs : List Tx :=
  [sampleTx 2024 1 5 (-10) "CoffeeShop" "dining.coffee",
   sampleTx 2024 1 6 2500 "Employer" "salary"]

def c3rows : List Row := match preprocess c3txs with | .ok rows => rows | .error _ => []

def c3row0 : Row := c3rows.getD 0 dRow

def c3row1 : Row := c3rows.getD 1 dRow

theorem c3_witness :
    (|c3row0.amt| ≤ |c3row0.amount| ∧
      |c3row0.amt| ≤ percentile_value (perCategoryValues c3rows c3row0.category)
        winsorisePercentile) ∧
    c3row1.amountW = some c3row1.amount :=
  ⟨(c3_winsorise_bounds c3txs c3rows (by with_unfolding_all rfl) c3row0
      (getD_mem c3rows dRow 0 (by rw [(by with_unfolding_all rfl : c3rows.length = 2)]; decide))).1
      (by with_unfolding_all rfl),
   (c3_winsorise_bounds c3txs c3rows (by with_unfolding_all rfl) c3row1
      (getD_mem c3rows dRow 1 (by rw [(by with_unfolding_all rfl : c3rows.length = 2)]; decide))).2
      (by with_unfolding_all rfl)⟩

/-! ### Claim C5: three equal 30-day charges -/

theorem qmedian_pair (x : ℚ) : qmedian [x, x] = x := by
  simp [qmedian, sortBy, insertBy]

theorem qmedian_triple (x : ℚ) : qmedian [x, x, x] = x := by
  simp [qmedian, sortBy, insertBy]

theorem sampleVar_triple (x : ℚ) : sampleVar [x, x, x] = 0 := by
  have hm : qmean [x, x, x] = x := by
    simp [qmean]
    ring
  simp [sampleVar, hm]

theorem match_interval_30 : match_interval 30 = some 30 := by
  norm_num [match_interval, recurringIntervalTolerance]

/-- C5 (amended): a merchant whose spend rows are exactly 3 charges of the
same (negative) amount spaced exactly 30 days apart, with magnitude at
most 200, yields a recurring entry with interval 30 and type
`subscription`; above magnitude 200 the 30-day interval classifies the
charge as `rent` instead (see the counterexample). -/
theorem c5_amended_subscription (rows : List Row) (m : String) (r1 r2 r3 : Row) (a : ℚ) (d : ℤ)
    (hgroup : (rows.filter (·.isSpend)).filter (fun r => decide (r.merchantNorm = m)) =
      [r1, r2, r3])
    (ha1 : r1.amount = a) (ha2 : r2.amount = a) (ha3 : r3.amount = a)
    (haneg : a < 0) (hasmall : |a| ≤ 200)
    (hd1 : r1.day = d) (hd2 : r2.day = d + 30) (hd3 : r3.day = d + 60)
    (hs1 : r1.dtSec ≤ r2.dtSec) (hs2 : r2.dtSec ≤ r3.dtSec) :
    ∃ e ∈ detect_recurring rows, e.merchantKey = m ∧ e.intervalDays = 30 ∧
      e.rtype = "subscription" := by
  have hr1mem : r1 ∈ (rows.filter (·.isSpend)).filter (fun r => decide (r.merchantNorm = m)) := by
    rw [hgroup]
    simp
  obtain ⟨hr1s, hr1m⟩ := List.mem_filter.mp hr1mem
  have hm1 : r1.merchantNorm = m := by simpa using hr1m
  have hsne : rows.filter (·.isSpend) ≠ [] := List.ne_nil_of_mem hr1s
  have hsort : sortBy (fun x y => decide (x.dtSec ≤ y.dtSec)) [r1, r2, r3] = [r1, r2, r3] := by
    simp [sortBy, insertBy, hs1, hs2]
  have hane : |a| ≠ 0 := abs_ne_zero.mpr (ne_of_lt haneg)
  have havg : ([|a|, |a|, |a|] : List ℚ).sum / (([|a|, |a|, |a|] : List ℚ).length : ℚ) = |a| := by
    simp
    ring
  have hgap1 : r2.day - r1.day = 30 := by
    rw [hd1, hd2]
    ring
  have hgap2 : r3.day - r2.day = 30 := by
    rw [hd2, hd3]
    ring
  have hmax30 : max (30 : ℤ) 1 = 30 := by decide
  have habs : |(-|a| : ℚ)| = |a| := by
    rw [abs_neg, abs_abs]
  have hproc : ∃ e, processMerchant rows (listMaxI (rows.map (·.dtSec)) - 60 * 86400) m
      [r1, r2, r3] = some e ∧ e.merchantKey = m ∧ e.intervalDays = 30 ∧
      e.rtype = "subscription" := by
    unfold processMerchant
    rw [if_neg (by norm_num [recurringMinOccurrences])]
    rw [hsort]
    simp only [List.map_cons, List.map_nil, ha1, ha2, ha3]
    rw [havg]
    rw [if_neg (by simpa using hane)]
    simp only [sampleVar_triple, ite_self]
    rw [if_neg (not_lt.mpr (sq_nonneg _))]
    have hintervals : ((([r1, r2, r3].zip [r1, r2, r3].tail).map
        (fun p => max (p.2.day - p.1.day) 1)) : List ℤ) = [30, 30] := by
      show [max (r2.day - r1.day) 1, max (r3.day - r2.day) 1] = [30, 30]
      rw [hgap1, hgap2, hmax30]
    rw [hintervals]
    rw [if_neg (by simp)]
    have hmed : qmedian (([30, 30] : List ℤ).map (fun i => (i : ℚ))) = 30 := by
      have hl : (([30, 30] : List ℤ).map (fun i => (i : ℚ))) = [(30 : ℚ), 30] := by
        norm_num
      rw [hl, qmedian_pair]
    rw [hmed, match_interval_30]
    simp only [qmedian_triple]
    rw [if_neg ?hno]
    case hno =>
      intro hand
      have h1 := hand.1
      rw [habs] at h1
      exact absurd h1 (not_lt.mpr hasmall)
    exact ⟨_, rfl, rfl, rfl, rfl⟩
  obtain ⟨e, he, hek, hei, het⟩ := hproc
  refine ⟨e, ?_, hek, hei, het⟩
  unfold detect_recurring
  rw [if_neg hsne]
  apply (mem_sortBy _ _ _).mpr
  apply List.mem_filterMap.mpr
  refine ⟨m, ?_, ?_⟩
  · exact (mem_insertOrder _ _).mpr (List.mem_map.mpr ⟨r1, hr1s, hm1⟩)
  · rw [hgroup]
    exact he

/-- Three identical 250-magnitude charges exactly 30 days apart. -/
def c5cexTxs : List Tx :=
  [sampleTx 2024 1 5 (-250) "BigLandlord" "entertainment",
   sampleTx 2024 2 4 (-250) "BigLandlord" "entertainment",
   sampleTx 2024 3 5 (-250) "BigLandlord" "entertainment"]

def c5cexRows : List Row := match preprocess c5cexTxs with | .ok rows => rows | .error _ => []

/-- C5 counterexample: a merchant with exactly 3 same-amount charges
spaced exactly 30 days apart whose magnitude exceeds 200 is emitted with
type `rent`, not `subscription` (the 30-day interval plus the >200 median
triggers the rent classification), refuting the claim's universal
quantification over amounts. -/
theorem c5_counterexample :
    (c5cexRows.filter (·.isSpend)).map (fun r => (r.merchantNorm, r.amount, r.day)) =
      [("biglandlord", -250, daysFromCivil 2024 1 5),
       ("biglandlord", -250, daysFromCivil 2024 1 5 + 30),
       ("biglandlord", -250, daysFromCivil 2024 1 5 + 60)] ∧
    (detect_recurring c5cexRows).map (fun e => (e.merchantKey, e.intervalDays, e.rtype)) =
      [("biglandlord", 30, "rent")] := by
  constructor
  · with_unfolding_all rfl
  · with_unfolding_all rfl

def c5wTxs : List Tx :=
  [sampleTx 2024 1 5 (-9.99) "Netflix" "entertainment",
   sampleTx 2024 2 4 (-9.99) "Netflix" "entertainment",
   sampleTx 2024 3 5 (-9.99) "Netflix" "entertainment"]

def c5wRows : List Row := match preprocess c5wTxs with | .ok rows => rows | .error _ => []

def c5wR1 : Row := c5wRows.getD 0 dRow

def c5wR2 : Row := c5wRows.getD 1 dRow

def c5wR3 : Row := c5wRows.getD 2 dRow

theorem c5_witness :
    ∃ e ∈ detect_recurring c5wRows, e.merchantKey = "netflix" ∧ e.intervalDays = 30 ∧
      e.rtype = "subscription" :=
  c5_amended_subscription c5wRows "netflix" c5wR1 c5wR2 c5wR3 (-9.99) (daysFromCivil 2024 1 5)
    (by with_unfolding_all rfl) (by with_unfolding_all rfl) (by with_unfolding_all rfl)
    (by with_unfolding_all rfl) (by norm_num) (by rw [abs_le]; constructor <;> norm_num)
    (by with_unfolding_all rfl) (by with_unfolding_all rfl) (by with_unfolding_all rfl)
    (by with_unfolding_all decide) (by with_unfolding_all decide)

/-! ### Claim C4: grocery variance example -/

/-- C4: for a batch whose spend rows are exactly one grocery transaction
of magnitude 50 in each of 3 consecutive (chronologically increasing,
pairwise distinct) months and a single grocery transaction of magnitude 55
on day 10 of a 30-day fourth month, `compute_variances` reports for
groceries: baseline 50 (median of the three prior nonzero months),
projection 55/10·30 = 165, variance 115, and opportunity
min(115, 50·0.2) = 10. -/
theorem c4_grocery_variance_example (rows : List Row) (r1 r2 r3 r4 : Row) (m1 m2 m3 m4 : ℤ × ℤ)
    (hs : rows.filter (·.isSpend) = [r1, r2, r3, r4])
    (hm1 : r1.monthKey = m1) (hm2 : r2.monthKey = m2)
    (hm3 : r3.monthKey = m3) (hm4 : r4.monthKey = m4)
    (_hcons2 : m2 = add_months m1 1) (_hcons3 : m3 = add_months m2 1)
    (_hcons4 : m4 = add_months m3 1)
    (hle12 : lexLe m1 m2 = true) (hle23 : lexLe m2 m3 = true) (hle34 : lexLe m3 m4 = true)
    (hne21 : m2 ≠ m1) (hne31 : m3 ≠ m1) (hne32 : m3 ≠ m2)
    (hne41 : m4 ≠ m1) (hne42 : m4 ≠ m2) (hne43 : m4 ≠ m3)
    (hc1 : r1.category = "groceries") (hc2 : r2.category = "groceries")
    (hc3 : r3.category = "groceries") (hc4 : r4.category = "groceries")
    (ha1 : r1.amount = -50) (ha2 : r2.amount = -50) (ha3 : r3.amount = -50)
    (ha4 : r4.amount = -55)
    (hd4 : r4.ts.day = 10) (hdays : month_days m4 = 30) :
    ∃ cv, (compute_variances rows none).perCategory.lookup "groceries" = some cv ∧
      cv.baseline = 50 ∧ cv.projection = 165 ∧ cv.variance = 115 ∧ cv.opportunity = 10 := by
  have hne14 : m1 ≠ m4 := hne41.symm
  have hne24 : m2 ≠ m4 := hne42.symm
  have hne34 : m3 ≠ m4 := hne43.symm
  have hne12 : m1 ≠ m2 := hne21.symm
  have hne13 : m1 ≠ m3 := hne31.symm
  have hne23 : m2 ≠ m3 := hne32.symm
  unfold compute_variances computeVariancesSpend
  rw [hs]
  rw [if_neg (by simp)]
  have hmapm : List.map (fun r => r.monthKey) [r1, r2, r3, r4] = [m1, m2, m3, m4] := by
    simp [hm1, hm2, hm3, hm4]
  have hio : insertOrder [m1, m2, m3, m4] = [m1, m2, m3, m4] := by
    simp [insertOrder, hne21, hne31, hne32, hne41, hne42, hne43]
  have hsorted : sortBy lexLe [m1, m2, m3, m4] = [m1, m2, m3, m4] := by
    simp [sortBy, insertBy, hle12, hle23, hle34]
  rw [hmapm, hio, hsorted]
  rw [if_neg (by simp)]
  have hcats : insertOrder (List.map (fun r => r.category) [r1, r2, r3, r4]) = ["groceries"] := by
    simp [insertOrder, hc1, hc2, hc3, hc4]
  rw [hcats]
  have hcm1 : ((([r1, r2, r3, r4].filter (fun r =>
      decide (r.category = "groceries") && decide (r.monthKey = m1))).map
      (fun r => |r.amount|)).sum : ℚ) = 50 := by
    simp [List.filter_cons, hc1, hc2, hc3, hc4, hm1, hm2, hm3, hm4, hne21, hne31, hne41, ha1]
  have hcm2 : ((([r1, r2, r3, r4].filter (fun r =>
      decide (r.category = "groceries") && decide (r.monthKey = m2))).map
      (fun r => |r.amount|)).sum : ℚ) = 50 := by
    simp [List.filter_cons, hc1, hc2, hc3, hc4, hm1, hm2, hm3, hm4, hne12, hne32, hne42, ha2]
  have hcm3 : ((([r1, r2, r3, r4].filter (fun r =>
      decide (r.category = "groceries") && decide (r.monthKey = m3))).map
      (fun r => |r.amount|)).sum : ℚ) = 50 := by
    simp [List.filter_cons, hc1, hc2, hc3, hc4, hm1, hm2, hm3, hm4, hne13, hne23, hne43, ha3]
  have hcm4 : ((([r1, r2, r3, r4].filter (fun r =>
      decide (r.category = "groceries") && decide (r.monthKey = m4))).map
      (fun r => |r.amount|)).sum : ℚ) = 55 := by
    simp [List.filter_cons, hc1, hc2, hc3, hc4, hm1, hm2, hm3, hm4, hne14, hne24, hne34, ha4]
  have hdom : listMaxI (([r1, r2, r3, r4].filter (fun r =>
      decide (r.monthKey = m4))).map (·.ts.day)) = 10 := by
    simp [List.filter_cons, hm1, hm2, hm3, hm4, hne14, hne24, hne34, hd4, listMaxI]
  have hlast : ([m1, m2, m3, m4] : List (ℤ × ℤ)).getLastD (0, 0) = m4 := by simp
  have hprev : (([m1, m2, m3, m4] : List (ℤ × ℤ)).dropLast).drop
      (([m1, m2, m3, m4] : List (ℤ × ℤ)).dropLast.length - 3) = [m1, m2, m3] := by simp
  rw [hlast, hprev]
  simp only [List.map_cons, List.map_nil]
  rw [hdom, hdays]
  have hlast3 : ([m1, m2, m3] : List (ℤ × ℤ)).getLastD (0, 0) = m3 := by simp
  simp only [hlast3, hcm1, hcm2, hcm3, hcm4, List.filterMap_cons, List.filterMap_nil, gt_iff_lt,
    (show (0 : ℚ) < 50 by norm_num), (show (0 : ℚ) < 55 by norm_num), if_true,
    (show ([(50 : ℚ), 50, 50] : List ℚ) ≠ [] by simp), qmedian_triple,
    (show (10 : ℤ) ≠ 0 by decide), (show (10 : ℤ) < 30 by decide),
    (show ((10 : ℤ) ⊔ 1) = 10 by decide),
    (show (((10 : ℤ) : ℚ)) = 10 by norm_num), (show (((30 : ℤ) : ℚ)) = 30 by norm_num),
    ne_eq, and_self, if_true, if_false, not_false_eq_true]
  refine ⟨_, rfl, ?_, ?_, ?_, ?_⟩
  · norm_num
  · norm_num
  · norm_num
  · rw [if_pos (by norm_num)]
    norm_num [opportunityCapRatio, min_def]


def c4txs : List Tx :=
  [sampleTx 2024 1 5 (-50) "Tesco" "groceries", sampleTx 2024 2 5 (-50) "Tesco" "groceries",
   sampleTx 2024 3 5 (-50) "Tesco" "groceries", sampleTx 2024 4 10 (-55) "Tesco" "groceries"]

def c4rows : List Row := match preprocess c4txs with | .ok rows => rows | .error _ => []

def c4r1 : Row := c4rows.getD 0 dRow

def c4r2 : Row := c4rows.getD 1 dRow

def c4r3 : Row := c4rows.getD 2 dRow

def c4r4 : Row := c4rows.getD 3 dRow

theorem c4_witness :
    ∃ cv, (compute_variances c4rows none).perCategory.lookup "groceries" = some cv ∧
      cv.baseline = 50 ∧ cv.projection = 165 ∧ cv.variance = 115 ∧ cv.opportunity = 10 :=
  c4_grocery_variance_example c4rows c4r1 c4r2 c4r3 c4r4 (2024, 1) (2024, 2) (2024, 3) (2024, 4)
    (by with_unfolding_all rfl)
    (by with_unfolding_all rfl) (by with_unfolding_all rfl)
    (by with_unfolding_all rfl) (by with_unfolding_all rfl)
    (by decide) (by decide) (by decide)
    (by decide) (by decide) (by decide)
    (by decide) (by decide) (by decide) (by decide) (by decide) (by decide)
    (by with_unfolding_all rfl) (by with_unfolding_all rfl)
    (by with_unfolding_all rfl) (by with_unfolding_all rfl)
    (by with_unfolding_all rfl) (by with_unfolding_all rfl) (by with_unfolding_all rfl)
    (by with_unfolding_all rfl)
    (by with_unfolding_all rfl) (by decide)

/-! ### Claim C10: no mutation of caller records (explicit-store model) -/

/-- A Python value as stored in a transaction dict (only the shapes the
pipeline reads or writes; dates and datetimes are stored via their
day-number / structured-timestamp encodings). -/
inductive PVal where
  | num (q : ℚ)
  | str (s : String)
  | int (n : ℤ)
  | bool (b : Bool)
  | pair (a b : ℤ)
  | stamp (t : Ts)
deriving DecidableEq

abbrev PDict := List (String × PVal)

abbrev Store := List PDict

/-- Python dict assignment `d[k] = v`: overwrite in place (keeping the
key's position), else append. -/
def dictSet (d : PDict) (k : String) (v : PVal) : PDict :=
  if d.any (fun kv => kv.1 == k) then
    d.map (fun kv => if kv.1 = k then (k, v) else kv)
  else d ++ [(k, v)]

/-- `d.update(pairs)`: successive assignments. -/
def dictUpdate (d : PDict) (pairs : List (String × PVal)) : PDict :=
  pairs.foldl (fun acc kv => dictSet acc kv.1 kv.2) d

/-- Read the raw transaction fields out of a dict (a well-typed batch
stores them with exactly these constructors; other shapes read as
absent). -/
def txOfDict (d : PDict) : Tx :=
  { amount := match d.lookup "amount" with | some (.num q) => some q | _ => none
    currency := match d.lookup "currency" with | some (.str s) => some s | _ => none
    ts := match d.lookup "ts" with | some (.stamp t) => some t | _ => none
    merchant := match d.lookup "merchant" with | some (.str s) => some s | _ => none
    category := match d.lookup "category" with | some (.str s) => some s | _ => none }

/-- The loop body of `preprocess_transactions` on the heap: validate via
`enrichOne`, then build `enriched = dict(row)` — a fresh copy of the
caller's dict — updated with the enrichment fields. -/
def enrichDict (d : PDict) : Except PreErr PDict :=
  match enrichOne (txOfDict d) with
  | .error e => .error e
  | .ok r => .ok (dictUpdate d
      [("amount", .num r.amount), ("amount_abs", .num r.amountAbs),
       ("ts", .stamp r.ts), ("dt", .stamp r.ts), ("date", .int r.day),
       ("dow", .int r.dow), ("hour", .int r.hour), ("week", .int r.week),
       ("week_year", .int r.weekYear), ("week_key", .pair r.weekKey.1 r.weekKey.2),
       ("week_start", .int r.weekStart), ("month", .pair r.monthKey.1 r.monthKey.2),
       ("month_key", .pair r.monthKey.1 r.monthKey.2), ("month_start", .int r.monthStart),
       ("is_spend", .bool r.isSpend), ("is_income", .bool r.isIncome),
       ("category", .str r.category), ("merchant", .str r.merchant),
       ("merchant_normalised", .str r.merchantNorm), ("time_bucket", .str r.timeBucket),
       ("iso_weekday", .int r.isoWeekday)])

def enrichDictAll : List PDict → Except PreErr (List PDict)
  | [] => .ok []
  | d :: ds => do
    let e ← enrichDict d
    let rest ← enrichDictAll ds
    pure (e :: rest)

/-- The in-place writes of `winsorise_spend_amounts`: set
`amount_winsorised` on the cell at each given address. -/
def writeWinsorised (s : Store) (l : List (ℕ × ℚ)) : Store :=
  l.foldl (fun st p => st.set p.1 (dictSet (st.getD p.1 []) "amount_winsorised" (.num p.2))) s

/-- Store-level `preprocess_transactions`: each enriched row is a fresh
cell appended to the heap, and the winsorisation pass writes
`amount_winsorised` only into those fresh cells.  A validation error
aborts before any cell is written (no partial mutation of inputs). -/
def preprocessStore (store : Store) (addrs : List ℕ) : Except PreErr (Store × List ℕ) := do
  let dicts := addrs.map (fun a => store.getD a [])
  let enriched ← enrichDictAll dicts
  let rows ← enrichAll (dicts.map txOfDict)
  let wrows := winsorise_spend_amounts rows winsorisePercentile
  let newAddrs := (List.range enriched.length).map (fun k => store.length + k)
  pure (writeWinsorised (store ++ enriched) (newAddrs.zip (wrows.map (fun r => r.amt))), newAddrs)

theorem getD_set_ne_pd (s : Store) (a i : ℕ) (x : PDict) (h : i ≠ a) :
    (s.set a x).getD i [] = s.getD i [] := by
  simp [List.getD_eq_getElem?_getD, List.getElem?_set_ne (Ne.symm h)]

theorem writeWinsorised_frame (l : List (ℕ × ℚ)) (s : Store) (n : ℕ)
    (hall : ∀ p ∈ l, n ≤ p.1) (i : ℕ) (hi : i < n) :
    (writeWinsorised s l).getD i [] = s.getD i [] := by
  induction l generalizing s with
  | nil => rfl
  | cons p t ih =>
    have hstep : writeWinsorised s (p :: t) =
        writeWinsorised (s.set p.1 (dictSet (s.getD p.1 []) "amount_winsorised" (.num p.2))) t :=
      rfl
    rw [hstep, ih _ (fun q hq => hall q (List.mem_cons_of_mem _ hq))]
    exact getD_set_ne_pd s p.1 i _ (Nat.ne_of_lt (Nat.lt_of_lt_of_le hi (hall p (List.mem_cons_self _ _))))

/-- C10: preprocessing never mutates the caller's input transaction
dicts — after `preprocessStore` succeeds, every input cell of the heap is
unchanged (in particular no `amount_winsorised` key is added to it); the
remaining pipeline stages are pure functions of the copied rows and touch
no cell.  On the error path no write occurs at all. -/
theorem c10_no_input_mutation (store : Store) (addrs : List ℕ) (res : Store × List ℕ)
    (h : preprocessStore store addrs = .ok res) (i : ℕ) (hi : i < store.length) :
    res.1.getD i [] = store.getD i [] := by
  simp only [preprocessStore, bind, Except.bind, pure, Except.pure] at h
  cases he : enrichDictAll (addrs.map (fun a => store.getD a [])) with
  | error e =>
    rw [he] at h
    simp at h
  | ok enriched =>
    rw [he] at h
    cases hr : enrichAll ((addrs.map (fun a => store.getD a [])).map txOfDict) with
    | error e =>
      rw [hr] at h
      simp at h
    | ok rows =>
      rw [hr] at h
      cases h
      have hbound : ∀ p ∈ (((List.range enriched.length).map (fun k => store.length + k)).zip
          ((winsorise_spend_amounts rows winsorisePercentile).map (fun r => r.amt))),
          store.length ≤ p.1 := by
        intro p hp
        have h1 := (List.of_mem_zip hp).1
        obtain ⟨k, -, hk⟩ := List.mem_map.mp h1
        omega
      rw [writeWinsorised_frame _ _ store.length hbound i hi]
      exact List.getD_append _ _ _ _ hi


def c10store : Store :=
  [[("amount", .num (-42)), ("currency", .str "GBP"), ("ts", .stamp ⟨2024, 1, 5, 10, 0, 0⟩),
    ("merchant", .str "Tesco"), ("category", .str "groceries")]]

def c10res : Store × List ℕ :=
  match preprocessStore c10store [0] with | .ok r => r | .error _ => ([], [])

theorem c10_witness : c10res.1.getD 0 [] = c10store.getD 0 [] :=
  c10_no_input_mutation c10store [0] c10res (by with_unfolding_all rfl) 0 (by decide)

end Savr
